import Mathlib

/-!
# Verification of the credit-note / commitment ledger

Shallow embedding of the ledger logic of `app.py` (and its duplicate in
`data_service.py`): the PostgreSQL tables become lists inside a `Store`
record, each `DataService` method becomes a pure function
`Store → … → Except String Store`, and the Streamlit form handlers become
functions that perform the same validations in the same order before calling
the data-service functions.  Monetary values are rationals `ℚ`.  The
program computes on them in Python floats (IEEE binary64) and stores them
in SQL `REAL` columns (IEEE binary32); the operations are therefore given
twice: an exact-rational idealization (no rounding — the reading under
which the algebraic round-trip laws hold), and rounding-faithful `*_fl`
variants built on `roundFP`, an exact model of IEEE
round-to-nearest-ties-even at 53 and 24 significand bits.  Claims whose
truth depends on rounding are settled against the `*_fl` variants.  The
decimal strings the UI accepts are parsed by `validar_numerico` below.
-/

namespace Ledger

/-- A row of the `notas` table (`CREATE TABLE notas` in `init_db`).
`valor` and `valor_restante` are `REAL` columns: the values the program
actually stores are binary32 floats.  The field type is the exact `ℚ`;
the rounding applied on each store is made explicit by the `*_fl`
operations (`fl32` at every write of these two columns), while the
plain operations form the exact idealization. -/
structure Nota where
  numero : String
  valor : ℚ
  valor_restante : ℚ
  descricao : String
  observacao : String
  prazo : String
  data_criacao : String
  natureza_despesa_codigo : String
  plano_interno_codigo : String
  ptres_codigo : String
  fonte_codigo : String
deriving Repr, DecidableEq

/-- A row of the `empenhos` table (`CREATE TABLE empenhos` in `init_db`).
`secao_requisitante_codigo` is `Option` because the schema's
`ON DELETE SET NULL` foreign key can null it.  `valor` is a `REAL`
column, binary32 in the program; as in `Nota`, the field is exact `ℚ`
and the `*_fl` operations make the store-time rounding explicit. -/
structure Empenho where
  id : Nat
  numero_nota : String
  valor : ℚ
  descricao : String
  data : String
  secao_requisitante_codigo : Option String
deriving Repr, DecidableEq

/-- A row of the `naturezas_despesa` table. -/
structure Natureza where
  codigo : String
  plano_interno_codigo : String
deriving Repr, DecidableEq

/-- The whole database: the five tables created by `init_db`, plus the
`SERIAL` sequence counter that assigns `empenhos.id`. -/
structure Store where
  planos : List String
  naturezas : List Natureza
  secoes : List String
  notas : List Nota
  empenhos : List Empenho
  nextId : Nat
deriving Repr, DecidableEq

/-- The freshly initialised database: all tables empty; a PostgreSQL
`SERIAL` sequence starts at 1. -/
def Store.empty : Store := ⟨[], [], [], [], [], 1⟩

/-! ## String primitives

The validators below work on a string's character list through these
structurally recursive helpers (the library's position-based string
functions are avoided so that every validator evaluates inside the
kernel). -/

/-- Split a character list at every occurrence of the separator, like
Python's `str.split` with a one-character separator. -/
def splitChar (sep : Char) : List Char → List (List Char)
  | [] => [[]]
  | c :: cs =>
    if c == sep then [] :: splitChar sep cs
    else
      match splitChar sep cs with
      | [] => [[c]]
      | h :: t => (c :: h) :: t

/-- The numeric value of a list of decimal digits. -/
def digitsToNat (l : List Char) : Nat :=
  l.foldl (fun a c => a * 10 + (c.toNat - 48)) 0

/-- Parse a non-empty all-digit character list, as `int`/`strptime` field
matching requires. -/
def parseNatChars? (l : List Char) : Option Nat :=
  if !l.isEmpty && l.all Char.isDigit then some (digitsToNat l) else none

/-- `str.upper()` on the ASCII repertoire the application uses. -/
def strUpper (s : String) : String := ⟨s.data.map Char.toUpper⟩

/-! ## Validators (`app.py`, `validar_*`) -/

/-- `validar_ptres`: `ptres.isdigit() and len(ptres) == 6`. -/
def validar_ptres (ptres : String) : Bool :=
  (!ptres.data.isEmpty && ptres.data.all Char.isDigit) &&
    ptres.data.length == 6

/-- `validar_fonte`: `fonte.isdigit() and len(fonte) == 10`. -/
def validar_fonte (fonte : String) : Bool :=
  (!fonte.data.isEmpty && fonte.data.all Char.isDigit) &&
    fonte.data.length == 10

/-- Core of the note-number pattern: the literal characters `NC` followed
by exactly six ASCII digits. -/
def nc6Chars : List Char → Bool
  | 'N' :: 'C' :: rest => rest.length == 6 && rest.all Char.isDigit
  | _ => false

/-- `validar_nota_numero`: `bool(re.match(r"^NC\d{6}$", numero))`.  Python's
`$` also matches just before one trailing newline, hence the second
disjunct.  Note this runs on the raw form input, before any uppercasing. -/
def validar_nota_numero (numero : String) : Bool :=
  nc6Chars numero.data ||
    (numero.data.getLast? == some '\n' && nc6Chars numero.data.dropLast)

/-- Days in a month, Gregorian calendar, as `datetime.strptime` enforces. -/
def diasNoMes (m y : Nat) : Nat :=
  if m == 2 then
    (if (y % 4 == 0 && y % 100 != 0) || y % 400 == 0 then 29 else 28)
  else if m == 4 || m == 6 || m == 9 || m == 11 then 30 else 31

/-- `validar_data`: `datetime.strptime(data_str, "%d/%m/%Y")` succeeds.
`%d` and `%m` accept one or two digits, `%Y` exactly four, and the day must
exist in the given month and year. -/
def validar_data (s : String) : Bool :=
  match splitChar '/' s.data with
  | [d, m, y] =>
    match parseNatChars? d, parseNatChars? m, parseNatChars? y with
    | some dv, some mv, some yv =>
      decide (d.length ≤ 2) && decide (m.length ≤ 2) && y.length == 4 &&
        decide (1 ≤ mv) && decide (mv ≤ 12) && decide (1 ≤ yv) &&
        decide (1 ≤ dv) && decide (dv ≤ diasNoMes mv yv)
    | _, _, _ => false
  | _ => false

/-- Parse a plain decimal literal (optional sign, digits, at most one dot)
to an exact rational; this is the shape of numeric input the forms take
(`float(valor.replace(',', '.'))` after the comma/dot swap). -/
def parseDecimal? (l : List Char) : Option ℚ :=
  let sign : ℚ := match l with
    | '-' :: _ => -1
    | _ => 1
  let t : List Char := match l with
    | '-' :: rest => rest
    | '+' :: rest => rest
    | _ => l
  match splitChar '.' t with
  | [a] =>
    if !a.isEmpty && a.all Char.isDigit then
      some (sign * (digitsToNat a : ℚ))
    else none
  | [a, b] =>
    if (!a.isEmpty || !b.isEmpty) && a.all Char.isDigit &&
        b.all Char.isDigit then
      some (sign *
        ((digitsToNat a : ℚ) + (digitsToNat b : ℚ) / (10 ^ b.length)))
    else none
  | _ => none

/-- `validar_numerico`: `float(valor.replace(',', '.')) if valor else None`,
returning `none` both for the empty string and for unparsable input.
This models the finite plain-decimal repertoire `[+-]digits[.digits]`
(after the comma→dot replace), i.e. the amounts the forms are meant to
accept.  Python's `float()` additionally accepts exponent notation,
`nan`/`inf`, surrounding whitespace and digit-group underscores; those
inputs are outside this embedding, so every theorem over
`validar_numerico` is scoped to the plain-decimal repertoire (a `nan`
typed into the value field would, in the program, pass the `<= 0` and
`> saldo` guards, since both comparisons are false for NaN). -/
def validar_numerico (valor : String) : Option ℚ :=
  if valor = "" then none
  else parseDecimal? (valor.data.map (fun c => if c == ',' then '.' else c))

/-! ## Data-service operations (`DataService` methods) -/

/-- The `ValueError` message raised by `save_plano_interno` on a duplicate
primary key. -/
def planoDupMsg (codigo : String) : String :=
  "O código do plano interno '" ++ codigo ++ "' já existe."

/-- The `ValueError` message raised by `save_natureza_despesa` whenever the
`INSERT` raises `psycopg2.IntegrityError` — the handler is the same for a
duplicate `codigo` primary key and for a missing `plano_interno_codigo`
foreign key, so both produce this "already exists" text. -/
def natDupMsg (codigo : String) : String :=
  "O código da natureza da despesa '" ++ codigo ++ "' já existe."

/-- The `ValueError` message raised by `save_secao_requisitante` on a
duplicate primary key. -/
def secaoDupMsg (codigo : String) : String :=
  "O código da seção requisitante '" ++ codigo ++ "' já existe."

/-- The `ValueError` message raised by `save_nota` when its `INSERT` raises
`psycopg2.IntegrityError` (duplicate `numero`, or a broken
natureza/plano foreign key — one handler for all of them). -/
def notaDupMsg (numero : String) : String :=
  "O número de nota '" ++ numero ++ "' já existe."

/-- `DataService.save_plano_interno`: `INSERT INTO planos_internos`; a
primary-key violation becomes the `ValueError` above. -/
def save_plano_interno (s : Store) (codigo : String) : Except String Store :=
  if s.planos.contains codigo then .error (planoDupMsg codigo)
  else .ok { s with planos := s.planos ++ [codigo] }

/-- `DataService.save_natureza_despesa`: `INSERT INTO naturezas_despesa`.
Both constraint failures the schema can produce — duplicate `codigo`
(primary key) and nonexistent `plano_interno_codigo` (foreign key to
`planos_internos`) — raise `psycopg2.IntegrityError`, which the method
translates into the single duplicate-code `ValueError`. -/
def save_natureza_despesa (s : Store) (codigo plano : String) :
    Except String Store :=
  if s.naturezas.any (fun n => n.codigo == codigo) ||
     !(s.planos.contains plano) then
    .error (natDupMsg codigo)
  else .ok { s with naturezas := s.naturezas ++ [⟨codigo, plano⟩] }

/-- `DataService.save_secao_requisitante`: `INSERT INTO secoes_requisitantes`. -/
def save_secao_requisitante (s : Store) (codigo : String) :
    Except String Store :=
  if s.secoes.contains codigo then .error (secaoDupMsg codigo)
  else .ok { s with secoes := s.secoes ++ [codigo] }

/-- `DataService.save_nota`: `INSERT INTO notas`.  Any
`psycopg2.IntegrityError` — duplicate `numero`, or a foreign-key failure on
`natureza_despesa_codigo` / `plano_interno_codigo` — is translated into the
duplicate-number `ValueError`. -/
def save_nota (s : Store) (n : Nota) : Except String Store :=
  if s.notas.any (fun x => x.numero == n.numero) ||
     !(s.naturezas.any (fun x => x.codigo == n.natureza_despesa_codigo)) ||
     !(s.planos.contains n.plano_interno_codigo) then
    .error (notaDupMsg n.numero)
  else .ok { s with notas := s.notas ++ [n] }

/-- The fields of the commitment row that `save_empenho` inserts; the `id`
is assigned by the `SERIAL` sequence at insertion time. -/
structure EmpenhoReq where
  numero_nota : String
  valor : ℚ
  descricao : String
  data : String
  secao_requisitante_codigo : Option String
deriving Repr, DecidableEq

/-- `DataService.save_empenho(empenho, nota)`: inside one transaction,
`INSERT INTO empenhos …` then
`UPDATE notas SET valor_restante = %s WHERE numero = %s` with the
caller-supplied `nota["valor_restante"]` and `nota["numero"]` — no check of
any business rule.  The only failures are the schema's foreign keys
(`numero_nota` must reference a note; a non-null section code must
reference a section), which re-raise and surface as a generic error. -/
def save_empenho (s : Store) (e : EmpenhoReq) (numero : String)
    (valor_restante : ℚ) : Except String Store :=
  if !(s.notas.any (fun n => n.numero == e.numero_nota)) ||
     (match e.secao_requisitante_codigo with
      | some c => !(s.secoes.contains c)
      | none => false) then
    .error "Erro ao salvar empenho."
  else
    .ok { s with
      empenhos := s.empenhos ++
        [⟨s.nextId, e.numero_nota, e.valor, e.descricao, e.data,
          e.secao_requisitante_codigo⟩],
      notas := s.notas.map (fun n =>
        if n.numero == numero then { n with valor_restante := valor_restante }
        else n),
      nextId := s.nextId + 1 }

/-- Remove the notes satisfying `p` and, through the
`ON DELETE CASCADE` foreign key of `empenhos.numero_nota`, every commitment
that references one of the removed notes. -/
def cascadeNotas (s : Store) (p : Nota → Bool) : Store :=
  { s with
    notas := s.notas.filter (fun n => !(p n)),
    empenhos := s.empenhos.filter
      (fun e => !((s.notas.filter p).any (fun n => n.numero == e.numero_nota))) }

/-- `DataService.delete_nota`: `DELETE FROM notas WHERE numero = %s` and
commit.  No existence check — deleting an absent number silently deletes
zero rows; the schema cascade removes the note's commitments. -/
def delete_nota (s : Store) (numero : String) : Except String Store :=
  .ok (cascadeNotas s (fun n => n.numero == numero))

/-- `DataService.delete_empenho`: select the commitment by id, raise
`ValueError("Empenho não encontrado.")` if absent; otherwise
`UPDATE notas SET valor_restante = valor_restante + %s WHERE numero = %s`
(a no-op when no such note exists — zero rows match, no error) and
`DELETE FROM empenhos WHERE id = %s`.  The addition here is exact-ℚ — the
idealization of the program's `REAL + double precision` arithmetic; the
rounding-faithful version is `delete_empenho_fl`. -/
def delete_empenho (s : Store) (empenho_id : Nat) : Except String Store :=
  match s.empenhos.find? (fun e => e.id == empenho_id) with
  | none => .error "Empenho não encontrado."
  | some e =>
    .ok { s with
      notas := s.notas.map (fun n =>
        if n.numero == e.numero_nota then
          { n with valor_restante := n.valor_restante + e.valor }
        else n),
      empenhos := s.empenhos.filter (fun x => !(x.id == empenho_id)) }

/-- `DataService.delete_plano_interno`: `DELETE FROM planos_internos`;
the schema cascades to the naturezas referencing the plan, to the notas
referencing the plan or one of those naturezas, and to those notas'
empenhos. -/
def delete_plano_interno (s : Store) (codigo : String) : Except String Store :=
  .ok { cascadeNotas s (fun n =>
      n.plano_interno_codigo == codigo ||
        (s.naturezas.filter (fun x => x.plano_interno_codigo == codigo)).any
          (fun x => x.codigo == n.natureza_despesa_codigo)) with
    planos := s.planos.filter (fun c => !(c == codigo)),
    naturezas := s.naturezas.filter
      (fun n => !(n.plano_interno_codigo == codigo)) }

/-- `DataService.delete_natureza_despesa`: cascade removes the notas that
reference the natureza and their empenhos. -/
def delete_natureza_despesa (s : Store) (codigo : String) :
    Except String Store :=
  .ok { cascadeNotas s (fun n => n.natureza_despesa_codigo == codigo) with
    naturezas := s.naturezas.filter (fun n => !(n.codigo == codigo)) }

/-- `DataService.delete_secao_requisitante`: the `ON DELETE SET NULL`
foreign key nulls the section code of every commitment that referenced the
deleted section. -/
def delete_secao_requisitante (s : Store) (codigo : String) :
    Except String Store :=
  .ok { s with
    secoes := s.secoes.filter (fun c => !(c == codigo)),
    empenhos := s.empenhos.map (fun e =>
      if e.secao_requisitante_codigo == some codigo then
        { e with secao_requisitante_codigo := none }
      else e) }

/-! ## Form handlers (the Streamlit screens in `app.py`) -/

/-- The "Adicionar Plano Interno" screen: reject an empty code, uppercase,
save. -/
def adicionar_plano_interno (s : Store) (codigo : String) :
    Except String Store :=
  if codigo = "" then .error "O campo código não pode estar vazio."
  else save_plano_interno s (strUpper codigo)

/-- The "Adicionar Natureza da Despesa" screen: reject an empty code, save
(no uppercasing here). -/
def adicionar_natureza_despesa (s : Store) (plano_codigo codigo : String) :
    Except String Store :=
  if codigo = "" then .error "O campo código não pode estar vazio."
  else save_natureza_despesa s codigo plano_codigo

/-- The "Adicionar Seção Requisitante" screen: reject an empty code,
uppercase, save. -/
def adicionar_secao_requisitante (s : Store) (codigo : String) :
    Except String Store :=
  if codigo = "" then .error "O campo código não pode estar vazio."
  else save_secao_requisitante s (strUpper codigo)

/-- The raw text fields of the "Adicionar Nota" form. -/
structure NotaForm where
  plano_codigo : String
  natureza_codigo : String
  ptres_codigo : String
  fonte_codigo : String
  numero : String
  valor : String
  descricao : String
  observacao : String
  prazo : String
deriving Repr, DecidableEq

/-- The "Adicionar Nota" form handler: the `all(...)` emptiness check, the
four validators, the positive-value check, then `save_nota` with
`numero.upper()`, `valor_restante = valor_float` and
`data_criacao = datetime.now().strftime(...)` — the clock is passed in as
`now`. -/
def adicionar_nota (s : Store) (f : NotaForm) (now : String) :
    Except String Store :=
  if f.plano_codigo = "" || f.natureza_codigo = "" || f.ptres_codigo = "" ||
     f.fonte_codigo = "" || f.numero = "" || f.valor = "" ||
     f.descricao = "" || f.prazo = "" then
    .error "Preencha todos os campos obrigatórios."
  else if !(validar_ptres f.ptres_codigo) then
    .error "O PTRES Código deve ter exatamente 6 dígitos."
  else if !(validar_fonte f.fonte_codigo) then
    .error "O Fonte Código deve ter exatamente 10 dígitos."
  else if !(validar_nota_numero f.numero) then
    .error "O Número da Nota deve ser NC seguido de 6 dígitos (ex: NC123456)."
  else if !(validar_data f.prazo) then
    .error "Prazo inválido! Use o formato DD/MM/AAAA (ex: 01/08/2025)."
  else
    match validar_numerico f.valor with
    | none => .error "O valor deve ser um número positivo."
    | some v =>
      if v ≤ 0 then .error "O valor deve ser um número positivo."
      else
        save_nota s
          ⟨strUpper f.numero, v, v,
           (if f.descricao = "" then "Sem descrição" else f.descricao),
           (if f.observacao = "" then "Sem observação" else f.observacao),
           f.prazo, now, f.natureza_codigo, f.plano_codigo,
           f.ptres_codigo, f.fonte_codigo⟩

/-- The message shown when the requested commitment value exceeds the
note's remaining balance (the Python interpolates the balance rendered to
two decimals; the rendering is abbreviated here). -/
def saldoInsuficienteMsg (saldo : ℚ) : String :=
  "Valor do empenho excede o saldo restante (R$" ++ toString saldo ++ ")."

/-- The "Registrar Empenho" form handler: look the note up, parse the
value, check (in this order) non-empty fields, positivity, and
`valor_float > nota["valor_restante"]`; on success decrement the loaded
note's balance in memory and call `save_empenho` with the decremented
value.  A `None` note would make the balance comparison raise a
`TypeError`, surfaced as the generic error message.  The subtraction here
is exact-ℚ — the idealization of the program's binary64 subtraction; the
rounding-faithful version is `registrar_empenho_fl`. -/
def registrar_empenho (s : Store) (numero_nota secao_codigo valor descricao : String)
    (now : String) : Except String Store :=
  if numero_nota = "" || secao_codigo = "" || valor = "" || descricao = "" then
    .error "Preencha todos os campos."
  else
    match validar_numerico valor with
    | none => .error "O valor do empenho deve ser positivo."
    | some v =>
      if v ≤ 0 then .error "O valor do empenho deve ser positivo."
      else
        match s.notas.find? (fun n => n.numero == numero_nota) with
        | none => .error "Ocorreu um erro: comparação com nota inexistente."
        | some n =>
          if v > n.valor_restante then
            .error (saldoInsuficienteMsg n.valor_restante)
          else
            save_empenho s
              ⟨numero_nota, v,
               (if descricao = "" then "Empenho sem descrição" else descricao),
               now, some secao_codigo⟩
              n.numero (n.valor_restante - v)

/-! ## Reading notes back (`DataService.load_notas`) -/

/-- `a` may precede `b` in the `ORDER BY data_criacao DESC` output: the
`data_criacao` string of `a` is not strictly below that of `b` in the
code-point lexicographic order (the order PostgreSQL applies to the `TEXT`
column under byte collation, via the character-list order on the
strings' contents). -/
def notaDesc (a b : Nota) : Prop :=
  b.data_criacao.data ≤ a.data_criacao.data

instance : DecidableRel notaDesc := fun a b =>
  inferInstanceAs (Decidable (b.data_criacao.data ≤ a.data_criacao.data))

instance : IsTotal Nota notaDesc :=
  ⟨fun a b => le_total b.data_criacao.data a.data_criacao.data⟩

instance : IsTrans Nota notaDesc :=
  ⟨fun _ _ _ hab hbc => le_trans hbc hab⟩

/-- `DataService.load_notas`:
`SELECT … FROM notas [WHERE natureza_despesa_codigo = %s] ORDER BY
data_criacao DESC` — the optional natureza filter, then a sort on the
`data_criacao` string, descending. -/
def load_notas (s : Store) (natureza? : Option String) : List Nota :=
  List.insertionSort notaDesc
    (match natureza? with
     | some c => s.notas.filter (fun n => n.natureza_despesa_codigo == c)
     | none => s.notas)

/-- The chronological reading of a `data_criacao` string
(`DD/MM/YYYY HH:MM:SS`, the format `datetime.now().strftime` produces):
a key that is monotone in the actual creation instant.  This formalises
the spec's "ordered by creation timestamp" and is deliberately written
from the spec, for comparison with the code's string sort. -/
def specChronoKey (s : String) : Nat :=
  match splitChar ' ' s.data with
  | [d, t] =>
    match splitChar '/' d, splitChar ':' t with
    | [dd, mm, yyyy], [hh, mi, ss] =>
      ((((digitsToNat yyyy * 100 + digitsToNat mm) * 100 + digitsToNat dd)
          * 100 + digitsToNat hh) * 100 + digitsToNat mi) * 100
        + digitsToNat ss
    | _, _ => 0
  | _ => 0

/-! ## Reachable states -/

/-- States reachable from the empty database through the application's
operations: the three reference-data create screens, the note and
commitment create screens, and the five delete operations.  A failing
operation leaves the store unchanged, so only successful results appear as
steps. -/
inductive Reach : Store → Prop where
  | init : Reach Store.empty
  | plano {s s' c} : Reach s → adicionar_plano_interno s c = .ok s' → Reach s'
  | natureza {s s' p c} : Reach s →
      adicionar_natureza_despesa s p c = .ok s' → Reach s'
  | secao {s s' c} : Reach s →
      adicionar_secao_requisitante s c = .ok s' → Reach s'
  | nota {s s' f now} : Reach s → adicionar_nota s f now = .ok s' → Reach s'
  | empenho {s s' nn sc v d now} : Reach s →
      registrar_empenho s nn sc v d now = .ok s' → Reach s'
  | delNota {s s' numero} : Reach s → delete_nota s numero = .ok s' → Reach s'
  | delEmpenho {s s' i} : Reach s → delete_empenho s i = .ok s' → Reach s'
  | delPlano {s s' c} : Reach s →
      delete_plano_interno s c = .ok s' → Reach s'
  | delNatureza {s s' c} : Reach s →
      delete_natureza_despesa s c = .ok s' → Reach s'
  | delSecao {s s' c} : Reach s →
      delete_secao_requisitante s c = .ok s' → Reach s'

end Ledger

deriving instance DecidableEq for Except

namespace Ledger

/-! ## Concrete example data shared by several witnesses -/

/-- Reference data only: one plan, one natureza, one section. -/
def exBase : Store := ⟨["PI001"], [⟨"ND1", "PI001"⟩], ["SR1"], [], [], 1⟩

/-- The note the "Adicionar Nota" form produces from the inputs used in the
witnesses below (value 10, so remaining 10). -/
def exNota10 : Nota :=
  ⟨"NC000001", 10, 10, "desc", "Sem observação", "01/08/2025",
   "05/10/2025 12:00:00", "ND1", "PI001", "123456", "0123456789"⟩

/-- `exBase` after creating the note `NC000001` of value 10. -/
def exS4 : Store := ⟨["PI001"], [⟨"ND1", "PI001"⟩], ["SR1"], [exNota10], [], 1⟩

/-- The orphan state for the defensive-deletion question: one commitment
whose parent note is gone (unreachable through the cascading operations,
but a raw database state). -/
def exOrphan : Store := ⟨[], [], [], [], [⟨1, "NC999999", 5, "e", "d", none⟩], 2⟩

/-- `exS4` after registering a commitment of 10 against `NC000001`:
balance drained to 0, one commitment row with the serial id 1. -/
def exS5 : Store :=
  ⟨["PI001"], [⟨"ND1", "PI001"⟩], ["SR1"],
   [{ exNota10 with valor_restante := 0 }],
   [⟨1, "NC000001", 10, "emp", "05/10/2025 13:00:00", some "SR1"⟩], 2⟩

/-- A note created on new year's eve ... -/
def exNotaVelha : Nota :=
  { exNota10 with numero := "NC000002", data_criacao := "31/12/2025 23:59:59" }

/-- ... and a note created one second later, already in the next year. -/
def exNotaNova : Nota :=
  { exNota10 with numero := "NC000003", data_criacao := "01/01/2026 00:00:00" }

/-- A store holding the two notes around the year boundary. -/
def exTurnOfYear : Store :=
  ⟨["PI001"], [⟨"ND1", "PI001"⟩], ["SR1"], [exNotaNova, exNotaVelha], [], 1⟩

/-! ## The balance invariant -/

/-- The total committed against note `numero`: the sum of the values of
the commitments whose `numero_nota` is `numero`. -/
def empSum (numero : String) (l : List Empenho) : ℚ :=
  ((l.filter (fun e => e.numero_nota == numero)).map (fun e => e.valor)).sum

/-- The inductive invariant of the ledger: every note was created with a
positive value and its remaining balance is exactly the original value
minus the total committed against it, never negative; every commitment has
a positive value, references an existing note, and carries a serial id
below the sequence counter; note numbers and commitment ids are unique. -/
def Inv (s : Store) : Prop :=
  (∀ n ∈ s.notas, 0 < n.valor ∧
     n.valor_restante = n.valor - empSum n.numero s.empenhos ∧
     0 ≤ n.valor_restante) ∧
  (∀ e ∈ s.empenhos, 0 < e.valor ∧
     (∃ n ∈ s.notas, n.numero = e.numero_nota) ∧ e.id < s.nextId) ∧
  (s.notas.map (fun n => n.numero)).Nodup ∧
  (s.empenhos.map (fun e => e.id)).Nodup

/-! ## Float rounding

The operations above read the program's arithmetic as exact rational
arithmetic.  The program itself computes in Python floats (IEEE binary64)
and stores monetary columns as PostgreSQL `REAL` (IEEE binary32), so every
arithmetic result is rounded to the nearest representable value before it
is stored.  The definitions below implement IEEE round-to-nearest,
ties-to-even at a given significand width, as an exact function on
rationals (unbounded exponent range: no overflow, underflow or subnormals
— exact for every magnitude the ledger's validated inputs produce), and
`*_fl` variants of the balance-changing operations that apply it at the
program's rounding sites.  Claims whose truth depends on rounding (the
create/delete round-trip and the balance bounds) are settled against these
variants. -/

/-- Number of bits of `n` (`0` for `0`), by fuel-bounded structural
recursion so that it evaluates inside the kernel. -/
def bitsFuel : Nat → Nat → Nat
  | 0, _ => 0
  | fuel+1, n => if n = 0 then 0 else bitsFuel fuel (n / 2) + 1

/-- Bit length of a natural number. -/
def bits (n : Nat) : Nat := bitsFuel n n

/-- The exponent of the unit in the last place when rounding the positive
value `n / d` to `prec` significand bits: `e − prec + 1` where
`2 ^ e ≤ n / d < 2 ^ (e + 1)`.  The binade exponent `e` is `bits n −
bits d` or that minus one; the integer comparison
`d * 2 ^ bits n ≤ n * 2 ^ bits d` (equivalently `2 ^ (bits n − bits d) ≤
n / d`) decides which. -/
def fpExp (prec n d : Nat) : Int :=
  (if d * 2 ^ bits n ≤ n * 2 ^ bits d then (bits n : Int) - bits d
   else (bits n : Int) - bits d - 1) - prec + 1

/-- Numerator of the value scaled by `2 ^ (−u)`. -/
def fpScaledN (n : Nat) (u : Int) : Nat :=
  if 0 ≤ u then n else n * 2 ^ (-u).toNat

/-- Denominator of the value scaled by `2 ^ (−u)`. -/
def fpScaledD (d : Nat) (u : Int) : Nat :=
  if 0 ≤ u then d * 2 ^ u.toNat else d

/-- Round `N / D` (with `D > 0`) to the nearest integer, ties to even. -/
def fpRoundInt (N D : Nat) : Nat :=
  if 2 * (N % D) < D then N / D
  else if D < 2 * (N % D) then N / D + 1
  else if (N / D) % 2 = 0 then N / D else N / D + 1

/-- Round the positive rational `n / d` to `prec` significand bits,
nearest, ties to even: the rounded significand times `2 ^ ulp`.  The
`= 0` guard never fires — the scaled value is at least `2 ^ (prec − 1) ≥ 1`
whenever `fpExp` names the true binade — and returning the unrounded value
there spares the development the bit-length correctness lemmas that the
sign arguments below would otherwise need. -/
def roundPosFP (prec n d : Nat) : ℚ :=
  if fpRoundInt (fpScaledN n (fpExp prec n d)) (fpScaledD d (fpExp prec n d)) = 0 then
    mkRat n d
  else if 0 ≤ fpExp prec n d then
    mkRat (fpRoundInt (fpScaledN n (fpExp prec n d)) (fpScaledD d (fpExp prec n d))
      * 2 ^ (fpExp prec n d).toNat) 1
  else
    mkRat (fpRoundInt (fpScaledN n (fpExp prec n d)) (fpScaledD d (fpExp prec n d)))
      (2 ^ (-(fpExp prec n d)).toNat)

/-- IEEE round-to-nearest, ties-to-even at `prec` significand bits, as an
exact map on rationals. -/
def roundFP (prec : Nat) (q : ℚ) : ℚ :=
  if 0 < q.num then roundPosFP prec q.num.toNat q.den
  else if q.num < 0 then - roundPosFP prec (-q.num).toNat q.den
  else 0

/-- Rounding to PostgreSQL `REAL` (IEEE binary32, 24 significand bits). -/
def fl32 (q : ℚ) : ℚ := roundFP 24 q

/-- Rounding of a Python-float (IEEE binary64, 53 significand bits)
arithmetic result. -/
def fl64 (q : ℚ) : ℚ := roundFP 53 q

/-! ## Float-faithful operations

The same code paths as `save_empenho`, `adicionar_nota`,
`registrar_empenho` and `delete_empenho`, with the binary64 rounding of
each Python arithmetic result and the binary32 rounding of each `REAL`
store made explicit. -/

/-- `DataService.save_empenho`, rounding-faithful: the `INSERT` stores the
commitment value into a `REAL` column (`fl32`), and the `UPDATE` stores
the caller-supplied balance into a `REAL` column (`fl32`). -/
def save_empenho_fl (s : Store) (e : EmpenhoReq) (numero : String)
    (valor_restante : ℚ) : Except String Store :=
  if !(s.notas.any (fun n => n.numero == e.numero_nota)) ||
     (match e.secao_requisitante_codigo with
      | some c => !(s.secoes.contains c)
      | none => false) then
    .error "Erro ao salvar empenho."
  else
    .ok { s with
      empenhos := s.empenhos ++
        [⟨s.nextId, e.numero_nota, fl32 e.valor, e.descricao, e.data,
          e.secao_requisitante_codigo⟩],
      notas := s.notas.map (fun n =>
        if n.numero == numero then
          { n with valor_restante := fl32 valor_restante }
        else n),
      nextId := s.nextId + 1 }

/-- The "Adicionar Nota" handler, rounding-faithful: `valor_float` is the
binary64 value of the typed decimal (`fl64`), the positivity check runs on
it, and `save_nota` stores it into the two `REAL` columns (`fl32`). -/
def adicionar_nota_fl (s : Store) (f : NotaForm) (now : String) :
    Except String Store :=
  if f.plano_codigo = "" || f.natureza_codigo = "" || f.ptres_codigo = "" ||
     f.fonte_codigo = "" || f.numero = "" || f.valor = "" ||
     f.descricao = "" || f.prazo = "" then
    .error "Preencha todos os campos obrigatórios."
  else if !(validar_ptres f.ptres_codigo) then
    .error "O PTRES Código deve ter exatamente 6 dígitos."
  else if !(validar_fonte f.fonte_codigo) then
    .error "O Fonte Código deve ter exatamente 10 dígitos."
  else if !(validar_nota_numero f.numero) then
    .error "O Número da Nota deve ser NC seguido de 6 dígitos (ex: NC123456)."
  else if !(validar_data f.prazo) then
    .error "Prazo inválido! Use o formato DD/MM/AAAA (ex: 01/08/2025)."
  else
    match validar_numerico f.valor with
    | none => .error "O valor deve ser um número positivo."
    | some v0 =>
      if fl64 v0 ≤ 0 then .error "O valor deve ser um número positivo."
      else
        save_nota s
          ⟨strUpper f.numero, fl32 (fl64 v0), fl32 (fl64 v0),
           (if f.descricao = "" then "Sem descrição" else f.descricao),
           (if f.observacao = "" then "Sem observação" else f.observacao),
           f.prazo, now, f.natureza_codigo, f.plano_codigo,
           f.ptres_codigo, f.fonte_codigo⟩

/-- The "Registrar Empenho" handler, rounding-faithful: the checks compare
the binary64 value `fl64 v0` against the stored (binary32) balance, the
in-memory decrement is a binary64 subtraction (`fl64`), and
`save_empenho_fl` applies the `REAL` rounding on storage. -/
def registrar_empenho_fl (s : Store)
    (numero_nota secao_codigo valor descricao : String) (now : String) :
    Except String Store :=
  if numero_nota = "" || secao_codigo = "" || valor = "" || descricao = "" then
    .error "Preencha todos os campos."
  else
    match validar_numerico valor with
    | none => .error "O valor do empenho deve ser positivo."
    | some v0 =>
      if fl64 v0 ≤ 0 then .error "O valor do empenho deve ser positivo."
      else
        match s.notas.find? (fun n => n.numero == numero_nota) with
        | none => .error "Ocorreu um erro: comparação com nota inexistente."
        | some n =>
          if fl64 v0 > n.valor_restante then
            .error (saldoInsuficienteMsg n.valor_restante)
          else
            save_empenho_fl s
              ⟨numero_nota, fl64 v0,
               (if descricao = "" then "Empenho sem descrição" else descricao),
               now, some secao_codigo⟩
              n.numero (fl64 (n.valor_restante - fl64 v0))

/-- `DataService.delete_empenho`, rounding-faithful: PostgreSQL evaluates
`valor_restante + %s` in double precision (`fl64`) and stores the result
back into the `REAL` column (`fl32`). -/
def delete_empenho_fl (s : Store) (empenho_id : Nat) : Except String Store :=
  match s.empenhos.find? (fun e => e.id == empenho_id) with
  | none => .error "Empenho não encontrado."
  | some e =>
    .ok { s with
      notas := s.notas.map (fun n =>
        if n.numero == e.numero_nota then
          { n with valor_restante := fl32 (fl64 (n.valor_restante + e.valor)) }
        else n),
      empenhos := s.empenhos.filter (fun x => !(x.id == empenho_id)) }

/-- States reachable from the empty database through the rounding-faithful
operations (the reference-data screens and the cascading deletes do no
arithmetic and are shared with the exact model). -/
inductive ReachFl : Store → Prop where
  | init : ReachFl Store.empty
  | plano {s s' c} : ReachFl s →
      adicionar_plano_interno s c = .ok s' → ReachFl s'
  | natureza {s s' p c} : ReachFl s →
      adicionar_natureza_despesa s p c = .ok s' → ReachFl s'
  | secao {s s' c} : ReachFl s →
      adicionar_secao_requisitante s c = .ok s' → ReachFl s'
  | nota {s s' f now} : ReachFl s →
      adicionar_nota_fl s f now = .ok s' → ReachFl s'
  | empenho {s s' nn sc v d now} : ReachFl s →
      registrar_empenho_fl s nn sc v d now = .ok s' → ReachFl s'
  | delNota {s s' numero} : ReachFl s →
      delete_nota s numero = .ok s' → ReachFl s'
  | delEmpenho {s s' i} : ReachFl s →
      delete_empenho_fl s i = .ok s' → ReachFl s'
  | delPlano {s s' c} : ReachFl s →
      delete_plano_interno s c = .ok s' → ReachFl s'
  | delNatureza {s s' c} : ReachFl s →
      delete_natureza_despesa s c = .ok s' → ReachFl s'
  | delSecao {s s' c} : ReachFl s →
      delete_secao_requisitante s c = .ok s' → ReachFl s'

/-- The balance bounds that survive rounding: positive original value,
non-negative remaining balance, positive commitment values.  (The exact
model's `remaining = original − committed` and `remaining ≤ original` do
not survive: rounding can push the balance above the original.) -/
def InvFl (s : Store) : Prop :=
  (∀ n ∈ s.notas, 0 < n.valor ∧ 0 ≤ n.valor_restante) ∧
  (∀ e ∈ s.empenhos, 0 < e.valor)

/-- A note of value 16777215 = 2²⁴ − 1, the largest odd integer binary32
represents exactly: one ulp from the rounding boundary. -/
def exNotaBig : Nota :=
  ⟨"NC000002", 16777215, 16777215, "desc", "Sem observação", "01/08/2025",
   "05/10/2025 12:00:00", "ND1", "PI001", "123456", "0123456789"⟩

/-- Reference data plus the 16777215 note. -/
def exFlBig : Store :=
  ⟨["PI001"], [⟨"ND1", "PI001"⟩], ["SR1"], [exNotaBig], [], 1⟩

/-- `exFlBig` after registering a commitment of 1.5: the double result
16777213.5 needs 25 significand bits, so the `REAL` column rounds it to
16777214 (ties to even). -/
def exFlBig1 : Store :=
  ⟨["PI001"], [⟨"ND1", "PI001"⟩], ["SR1"],
   [{ exNotaBig with valor_restante := 16777214 }],
   [⟨1, "NC000002", mkRat 3 2, "emp", "05/10/2025 13:00:00", some "SR1"⟩], 2⟩

/-- `exFlBig1` after deleting that commitment: 16777214 + 1.5 = 16777215.5
rounds (ties to even) to 16777216 — above the original 16777215. -/
def exFlBig2 : Store :=
  ⟨["PI001"], [⟨"ND1", "PI001"⟩], ["SR1"],
   [{ exNotaBig with valor_restante := 16777216 }], [], 2⟩

/-! ## List helper lemmas -/

theorem any_of_mem_of_true {α : Type} {l : List α} {p : α → Bool} {a : α}
    (ha : a ∈ l) (hp : p a = true) : l.any p = true :=
  List.any_eq_true.mpr ⟨a, ha, hp⟩

/-! ## C4: a freshly created note has `remaining = original` -/

/-- C4: whenever the "Adicionar Nota" handler succeeds, the persisted note
has `valor_restante` equal to `valor`, carries the uppercased form number
and the creation timestamp. -/
theorem adicionar_nota_restante_eq_valor :
    ∀ (s : Store) (f : NotaForm) (now : String) (s' : Store),
    adicionar_nota s f now = .ok s' →
    ∃ n : Nota, s'.notas = s.notas ++ [n] ∧ n.valor_restante = n.valor ∧
      n.numero = strUpper f.numero ∧ n.data_criacao = now := by
  intro s f now s' h
  unfold adicionar_nota save_nota at h
  repeat' split at h
  all_goals first
    | exact Except.noConfusion h
    | (injection h with h; subst h; exact ⟨_, rfl, rfl, rfl, rfl⟩)

/-- C4 witness: the concrete creation of `NC000001` with value 10. -/
theorem adicionar_nota_restante_eq_valor_witness :
    adicionar_nota exBase
      ⟨"PI001", "ND1", "123456", "0123456789", "NC000001", "10",
       "desc", "", "01/08/2025"⟩ "05/10/2025 12:00:00" = .ok exS4 ∧
    (∃ n : Nota, exS4.notas = exBase.notas ++ [n] ∧
      n.valor_restante = n.valor ∧ n.numero = strUpper "NC000001" ∧
      n.data_criacao = "05/10/2025 12:00:00") :=
  ⟨by with_unfolding_all decide,
   adicionar_nota_restante_eq_valor exBase
     ⟨"PI001", "ND1", "123456", "0123456789", "NC000001", "10",
      "desc", "", "01/08/2025"⟩ "05/10/2025 12:00:00" exS4
     (by with_unfolding_all decide)⟩

/-! ## C10: `save_empenho` checks no business rule -/

/-- C10: provided only the schema's foreign keys hold (the note row exists
and the section code is null or existing), `save_empenho` succeeds for
every commitment value — zero, negative or arbitrarily large — inserting
the row as given and overwriting the note's `valor_restante` with the
caller-supplied value `r`, whatever it is. -/
theorem save_empenho_no_business_rules :
    ∀ (s : Store) (e : EmpenhoReq) (numero : String) (r : ℚ),
    s.notas.any (fun n => n.numero == e.numero_nota) = true →
    (∀ c, e.secao_requisitante_codigo = some c → c ∈ s.secoes) →
    ∃ s', save_empenho s e numero r = .ok s' ∧
      s'.empenhos = s.empenhos ++
        [⟨s.nextId, e.numero_nota, e.valor, e.descricao, e.data,
          e.secao_requisitante_codigo⟩] ∧
      (∀ n ∈ s.notas, n.numero = numero →
        { n with valor_restante := r } ∈ s'.notas) ∧
      (∀ n ∈ s.notas, n.numero ≠ numero → n ∈ s'.notas) := by
  intro s e numero r hnote hsec
  refine ⟨{ s with
      empenhos := s.empenhos ++
        [⟨s.nextId, e.numero_nota, e.valor, e.descricao, e.data,
          e.secao_requisitante_codigo⟩],
      notas := s.notas.map (fun n =>
        if n.numero == numero then { n with valor_restante := r } else n),
      nextId := s.nextId + 1 }, ?_, rfl, ?_, ?_⟩
  · unfold save_empenho
    rw [if_neg]
    simp only [hnote, Bool.not_true, Bool.false_or]
    cases hc : e.secao_requisitante_codigo with
    | none => simp
    | some c => simp [hsec c hc]
  · intro n hn hnum
    have h2 : (if n.numero == numero then { n with valor_restante := r } else n)
        ∈ (s.notas.map (fun n =>
          if n.numero == numero then { n with valor_restante := r } else n)) :=
      List.mem_map_of_mem _ hn
    simpa [hnum] using h2
  · intro n hn hnum
    have h2 : (if n.numero == numero then { n with valor_restante := r } else n)
        ∈ (s.notas.map (fun n =>
          if n.numero == numero then { n with valor_restante := r } else n)) :=
      List.mem_map_of_mem _ hn
    simpa [hnum] using h2

/-- C10 witness: a zero-remaining note still accepts a commitment of value
−5 through `save_empenho`, and the remaining balance is overwritten with
−100, both without complaint. -/
theorem save_empenho_no_business_rules_witness :
    exS4.notas.any (fun n => n.numero == "NC000001") = true ∧
    (∃ s', save_empenho exS4 ⟨"NC000001", -5, "e", "d", none⟩
        "NC000001" (-100) = .ok s' ∧
      s'.empenhos = exS4.empenhos ++
        [⟨exS4.nextId, "NC000001", -5, "e", "d", none⟩] ∧
      (∀ n ∈ exS4.notas, n.numero = "NC000001" →
        { n with valor_restante := (-100 : ℚ) } ∈ s'.notas) ∧
      (∀ n ∈ exS4.notas, n.numero ≠ "NC000001" → n ∈ s'.notas)) :=
  ⟨by decide,
   save_empenho_no_business_rules exS4 ⟨"NC000001", -5, "e", "d", none⟩
     "NC000001" (-100) (by decide) (by intro c hc; exact Option.noConfusion hc)⟩

/-! ## C1: exact exhaustion succeeds, any excess fails -/

/-- C1: for a well-formed commitment request against an existing note and
section, requesting exactly the remaining balance succeeds and leaves the
note's balance at 0, while requesting strictly more (by any margin, one
cent included) fails with the insufficient-balance message and produces no
new state. -/
theorem registrar_empenho_exact_and_excess :
    ∀ (s : Store) (num sec val desc now : String) (n : Nota) (v : ℚ),
    s.notas.find? (fun x => x.numero == num) = some n →
    validar_numerico val = some v →
    num ≠ "" → sec ≠ "" → val ≠ "" → desc ≠ "" →
    sec ∈ s.secoes →
    0 < v →
    ((v = n.valor_restante →
        ∃ s', registrar_empenho s num sec val desc now = .ok s' ∧
          ∃ n', n' ∈ s'.notas ∧ n'.numero = n.numero ∧
            n'.valor_restante = 0) ∧
     (n.valor_restante < v →
        registrar_empenho s num sec val desc now =
          .error (saldoInsuficienteMsg n.valor_restante))) := by
  intro s num sec val desc now n v hfind hv hnum hsec hval hdesc hsecmem hvpos
  have hmem : n ∈ s.notas := List.mem_of_find?_eq_some hfind
  have hbeq : (n.numero == num) = true := by
    simpa using List.find?_some hfind
  constructor
  · intro hveq
    have hnle : ¬ v ≤ 0 := not_le.mpr hvpos
    have hngt : ¬ v > n.valor_restante := by
      rw [hveq]
      exact lt_irrefl _
    simp only [registrar_empenho, hv, hfind, hnum, hsec, hval, hdesc]
    rw [if_neg (by simp [hnum, hsec, hval, hdesc])]
    rw [if_neg hnle, if_neg hngt]
    unfold save_empenho
    rw [if_neg]
    · refine ⟨_, rfl, { n with valor_restante := n.valor_restante - v },
        ?_, rfl, ?_⟩
      · have h2 := List.mem_map_of_mem (fun x =>
          if x.numero == n.numero then
            { x with valor_restante := n.valor_restante - v } else x) hmem
        simpa using h2
      · show n.valor_restante - v = 0
        rw [hveq, sub_self]
    · have hany : (s.notas.any (fun x => x.numero == num)) = true :=
        any_of_mem_of_true hmem hbeq
      simp [hany, hsecmem]
  · intro hlt
    have hnle : ¬ v ≤ 0 := not_le.mpr hvpos
    simp only [registrar_empenho, hv, hfind]
    rw [if_neg (by simp [hnum, hsec, hval, hdesc])]
    rw [if_neg hnle, if_pos hlt]

set_option maxRecDepth 10000 in
/-- C1 witness: on the note of remaining balance 10, the request "10"
drains it to 0 and the request "10.01" (one cent more) is rejected with
the insufficient-balance error. -/
theorem registrar_empenho_exact_and_excess_witness :
    exS4.notas.find? (fun x => x.numero == "NC000001") = some exNota10 ∧
    validar_numerico "10" = some 10 ∧
    validar_numerico "10.01" = some (mkRat 1001 100) ∧
    (10 : ℚ) = exNota10.valor_restante ∧
    exNota10.valor_restante < mkRat 1001 100 ∧
    (∃ s', registrar_empenho exS4 "NC000001" "SR1" "10" "emp"
        "05/10/2025 13:00:00" = .ok s' ∧
      ∃ n', n' ∈ s'.notas ∧ n'.numero = exNota10.numero ∧
        n'.valor_restante = 0) ∧
    registrar_empenho exS4 "NC000001" "SR1" "10.01" "emp"
        "05/10/2025 13:00:00" =
      .error (saldoInsuficienteMsg exNota10.valor_restante) :=
  ⟨by decide, by with_unfolding_all decide, by with_unfolding_all decide,
   by with_unfolding_all decide, by with_unfolding_all decide,
   (registrar_empenho_exact_and_excess exS4 "NC000001" "SR1" "10" "emp"
      "05/10/2025 13:00:00" exNota10 10 (by decide)
      (by with_unfolding_all decide) (by decide) (by decide) (by decide)
      (by decide) (by decide) (by with_unfolding_all decide)).1
      (by with_unfolding_all decide),
   (registrar_empenho_exact_and_excess exS4 "NC000001" "SR1" "10.01" "emp"
      "05/10/2025 13:00:00" exNota10 (mkRat 1001 100) (by decide)
      (by with_unfolding_all decide) (by decide) (by decide) (by decide)
      (by decide) (by decide) (by with_unfolding_all decide)).2
      (by with_unfolding_all decide)⟩

/-! ## C5: deleting a note never reports NotFound -/

/-- C5 counterexample: deleting the nonexistent note `NC000001` from the
empty store succeeds silently instead of failing with a not-found error. -/
theorem delete_nota_missing_succeeds :
    delete_nota Store.empty "NC000001" = .ok Store.empty := by decide

/-- C5 amended: `delete_nota` always succeeds.  When the note exists it and
all of its commitments are removed (the schema cascade); when it does not,
the call is a silent no-op — it never fails with NotFound. -/
theorem delete_nota_no_notfound_and_cascades :
    ∀ (s : Store) (numero : String),
    ∃ s', delete_nota s numero = .ok s' ∧
      s'.notas = s.notas.filter (fun n => !(n.numero == numero)) ∧
      ((∃ n ∈ s.notas, n.numero = numero) →
        s'.empenhos = s.empenhos.filter (fun e => !(e.numero_nota == numero))) ∧
      ((¬ ∃ n ∈ s.notas, n.numero = numero) →
        s'.notas = s.notas ∧ s'.empenhos = s.empenhos) := by
  intro s numero
  refine ⟨_, rfl, rfl, ?_, ?_⟩
  · intro hex
    obtain ⟨n0, hn0, hnum0⟩ := hex
    show s.empenhos.filter _ = s.empenhos.filter _
    apply List.filter_congr
    intro e _
    have inner : ((s.notas.filter (fun n => n.numero == numero)).any
        (fun n => n.numero == e.numero_nota)) = (e.numero_nota == numero) := by
      rw [Bool.eq_iff_iff]
      simp only [List.any_eq_true, List.mem_filter, beq_iff_eq]
      constructor
      · rintro ⟨x, ⟨_, hx2⟩, hx3⟩
        rw [← hx3]
        exact hx2
      · intro hb
        exact ⟨n0, ⟨hn0, hnum0⟩, hnum0.trans hb.symm⟩
    exact congrArg Bool.not inner
  · intro hnone
    have hfilter : s.notas.filter (fun n => !(n.numero == numero)) = s.notas := by
      apply List.filter_eq_self.mpr
      intro n hn
      simp only [Bool.not_eq_eq_eq_not, Bool.not_true, beq_eq_false_iff_ne]
      exact fun he => hnone ⟨n, hn, he⟩
    have hdead : List.filter (fun n => n.numero == numero) s.notas = [] := by
      apply List.filter_eq_nil_iff.mpr
      intro n hn h
      exact hnone ⟨n, hn, by simpa using h⟩
    refine ⟨hfilter, ?_⟩
    have h2 : s.empenhos.filter (fun e =>
        !((List.filter (fun n => n.numero == numero) s.notas).any
          (fun n => n.numero == e.numero_nota))) = s.empenhos := by
      rw [hdead]
      simp only [List.any_nil, Bool.not_false, List.filter_true]
    exact h2

/-- C5 witness: deleting `NC000001` from the state where it carries one
commitment removes both the note and the commitment. -/
theorem delete_nota_no_notfound_and_cascades_witness :
    ∃ s', delete_nota
        ⟨["PI001"], [⟨"ND1", "PI001"⟩], ["SR1"],
         [{ exNota10 with valor_restante := 0 }],
         [⟨1, "NC000001", 10, "emp", "t", some "SR1"⟩], 2⟩ "NC000001" =
      .ok s' ∧
      s'.notas = [{ exNota10 with valor_restante := 0 }].filter
        (fun n => !(n.numero == "NC000001")) ∧
      ((∃ n ∈ [{ exNota10 with valor_restante := 0 }], n.numero = "NC000001") →
        s'.empenhos = [(⟨1, "NC000001", 10, "emp", "t", some "SR1"⟩ : Empenho)].filter
          (fun e => !(e.numero_nota == "NC000001"))) ∧
      ((¬ ∃ n ∈ [{ exNota10 with valor_restante := 0 }], n.numero = "NC000001") →
        s'.notas = [{ exNota10 with valor_restante := 0 }] ∧
        s'.empenhos = [(⟨1, "NC000001", 10, "emp", "t", some "SR1"⟩ : Empenho)]) :=
  delete_nota_no_notfound_and_cascades
    ⟨["PI001"], [⟨"ND1", "PI001"⟩], ["SR1"],
     [{ exNota10 with valor_restante := 0 }],
     [⟨1, "NC000001", 10, "emp", "t", some "SR1"⟩], 2⟩ "NC000001"

/-! ## C6: deleting an orphaned commitment is silent -/

/-- C6 counterexample: deleting a commitment whose parent note no longer
exists completes successfully — the zero-row balance `UPDATE` raises
nothing and no inconsistency is reported. -/
theorem delete_empenho_orphan_succeeds :
    delete_empenho exOrphan 1 = .ok ⟨[], [], [], [], [], 2⟩ := by decide

/-- C6 amended: when the commitment id exists but no note carries its
`numero_nota`, `delete_empenho` succeeds silently: no note is touched and
the commitment row is removed. -/
theorem delete_empenho_orphan_silent :
    ∀ (s : Store) (i : Nat) (e : Empenho),
    s.empenhos.find? (fun x => x.id == i) = some e →
    (∀ n ∈ s.notas, n.numero ≠ e.numero_nota) →
    ∃ s', delete_empenho s i = .ok s' ∧ s'.notas = s.notas ∧
      s'.empenhos = s.empenhos.filter (fun x => !(x.id == i)) := by
  intro s i e hfind horph
  unfold delete_empenho
  rw [hfind]
  refine ⟨_, rfl, ?_, rfl⟩
  calc s.notas.map (fun n =>
        if n.numero == e.numero_nota then
          { n with valor_restante := n.valor_restante + e.valor } else n)
      = s.notas.map id := by
        apply List.map_congr_left
        intro n hn
        rw [if_neg]
        · rfl
        · simp [horph n hn]
    _ = s.notas := List.map_id _

/-- C6 witness: the concrete orphan state. -/
theorem delete_empenho_orphan_silent_witness :
    exOrphan.empenhos.find? (fun x => x.id == 1) =
      some ⟨1, "NC999999", 5, "e", "d", none⟩ ∧
    (∃ s', delete_empenho exOrphan 1 = .ok s' ∧ s'.notas = exOrphan.notas ∧
      s'.empenhos = exOrphan.empenhos.filter (fun x => !(x.id == 1))) :=
  ⟨by decide, delete_empenho_orphan_silent exOrphan 1
    ⟨1, "NC999999", 5, "e", "d", none⟩ (by decide) (by decide)⟩

/-! ## C7: missing parent plan produces the duplicate-key message -/

/-- C7 counterexample: a genuinely duplicate natureza code and a natureza
whose parent plan is missing produce the very same "already exists" error
text — the referential-integrity failure is not reported as a missing
parent. -/
theorem natureza_dup_vs_missing_plan_same_message :
    save_natureza_despesa ⟨["PI001"], [⟨"ND1", "PI001"⟩], [], [], [], 1⟩
      "ND1" "PI001" = .error (natDupMsg "ND1") ∧
    save_natureza_despesa ⟨["PI001"], [⟨"ND1", "PI001"⟩], [], [], [], 1⟩
      "ND2" "PI999" = .error (natDupMsg "ND2") ∧
    natDupMsg "ND2" = "O código da natureza da despesa 'ND2' já existe." := by
  refine ⟨by decide, by decide, rfl⟩

/-- C7 amended: creating an expense nature whose plan code does not exist
fails, but with the duplicate-code `ValueError` text naming the nature
code (`psycopg2.IntegrityError` is translated uniformly), not with a
message about the missing parent. -/
theorem save_natureza_missing_plan_dup_message :
    ∀ (s : Store) (codigo plano : String),
    plano ∉ s.planos →
    save_natureza_despesa s codigo plano = .error (natDupMsg codigo) := by
  intro s codigo plano h
  unfold save_natureza_despesa
  rw [if_pos]
  simp [h]

/-- C7 witness. -/
theorem save_natureza_missing_plan_dup_message_witness :
    "PI001" ∉ Store.empty.planos ∧
    save_natureza_despesa Store.empty "3.3.90.39" "PI001" =
      .error (natDupMsg "3.3.90.39") :=
  ⟨by decide, save_natureza_missing_plan_dup_message Store.empty
    "3.3.90.39" "PI001" (by decide)⟩

/-! ## C8: the note-number validator is case-sensitive -/

/-- C8 counterexample: `nc123456` is rejected — `validar_nota_numero` runs
on the raw input and the `.upper()` normalisation only happens after
validation succeeds, so the lowercase form never reaches it. -/
theorem validar_nota_numero_rejects_lowercase :
    validar_nota_numero "nc123456" = false ∧
    adicionar_nota exBase
      ⟨"PI001", "ND1", "123456", "0123456789", "nc123456", "10",
       "desc", "", "01/08/2025"⟩ "05/10/2025 12:00:00" =
      .error "O Número da Nota deve ser NC seguido de 6 dígitos (ex: NC123456)." := by
  exact ⟨by decide, by decide⟩

/-- C8 amended: the validator accepts `NC123456` and rejects `NC12345`,
`XX123456` and also `nc123456` (case-sensitively); uppercasing `nc123456`
first would make it acceptable, but the handler validates before
uppercasing. -/
theorem validar_nota_numero_case_sensitive :
    validar_nota_numero "NC123456" = true ∧
    validar_nota_numero "NC12345" = false ∧
    validar_nota_numero "XX123456" = false ∧
    validar_nota_numero "nc123456" = false ∧
    strUpper "nc123456" = "NC123456" ∧
    validar_nota_numero (strUpper "nc123456") = true := by
  refine ⟨by decide, by decide, by decide, by decide, by decide, by decide⟩

/-! ## The create-then-delete round trip in the exact idealization -/

/-- The single-transaction pair of the round trip: after `save_empenho`
records a commitment (with the handler-computed decremented balance),
`delete_empenho` of the fresh serial id adds the stored value back and
removes the row, restoring the note table and the commitment table
exactly. -/
theorem save_empenho_delete_roundtrip :
    ∀ (s : Store) (req : EmpenhoReq) (n : Nota) (s1 : Store),
    (s.notas.map (fun x => x.numero)).Nodup →
    (∀ e ∈ s.empenhos, e.id < s.nextId) →
    n ∈ s.notas → n.numero = req.numero_nota →
    save_empenho s req n.numero (n.valor_restante - req.valor) = .ok s1 →
    ∃ s2, delete_empenho s1 s.nextId = .ok s2 ∧
      s2.notas = s.notas ∧ s2.empenhos = s.empenhos := by
  intro s req n s1 hnodup hid hmem hnum hsave
  unfold save_empenho at hsave
  split at hsave
  · exact Except.noConfusion hsave
  · injection hsave with hsave
    subst hsave
    unfold delete_empenho
    have hfindnew : (s.empenhos ++
        ([⟨s.nextId, req.numero_nota, req.valor, req.descricao, req.data,
          req.secao_requisitante_codigo⟩] : List Empenho)).find?
          (fun x => x.id == s.nextId) =
        some (⟨s.nextId, req.numero_nota, req.valor, req.descricao, req.data,
          req.secao_requisitante_codigo⟩ : Empenho) := by
      rw [List.find?_append]
      have h1 : s.empenhos.find? (fun x => x.id == s.nextId) = none := by
        rw [List.find?_eq_none]
        intro e he
        simp [Nat.ne_of_lt (hid e he)]
      rw [h1]
      simp
    rw [hfindnew]
    refine ⟨_, rfl, ?_, ?_⟩
    · show (s.notas.map _).map _ = s.notas
      rw [List.map_map]
      have hcong : ∀ x ∈ s.notas,
          ((fun m : Nota =>
              if m.numero == req.numero_nota then
                { m with valor_restante := m.valor_restante + req.valor }
              else m) ∘
            (fun m : Nota =>
              if m.numero == n.numero then
                { m with valor_restante := n.valor_restante - req.valor }
              else m)) x = id x := by
        intro x hx
        by_cases hcase : (x.numero == n.numero) = true
        · have hxeq : x = n := by
            apply List.inj_on_of_nodup_map hnodup hx hmem
            simpa using hcase
          subst hxeq
          simp only [Function.comp_apply, hcase, if_pos, id_eq]
          rw [if_pos (by simpa using hnum)]
          have : x.valor_restante - req.valor + req.valor = x.valor_restante := by
            ring
          simp [this]
        · have hcase2 : (x.numero == req.numero_nota) = false := by
            rw [← hnum]
            simpa using hcase
          simp only [Function.comp_apply, hcase, hcase2, if_neg, id_eq]
          simp [hcase, hcase2]
      rw [List.map_congr_left hcong, List.map_id]
    · show List.filter _ (s.empenhos ++ _) = s.empenhos
      rw [List.filter_append]
      have h1 : s.empenhos.filter (fun x => !(x.id == s.nextId)) = s.empenhos := by
        apply List.filter_eq_self.mpr
        intro e he
        simp [Nat.ne_of_lt (hid e he)]
      have h2 : List.filter (fun x => !(x.id == s.nextId))
          [(⟨s.nextId, req.numero_nota, req.valor, req.descricao, req.data,
            req.secao_requisitante_codigo⟩ : Empenho)] = [] := by
        simp
      rw [h1, h2, List.append_nil]

/-- In the exact-rational idealization of the arithmetic, creating a
commitment through the form handler and then deleting the commitment it
inserted restores both the note table (hence the note's remaining balance)
and the commitment table.  This exactness is an artifact of the
idealization: under the program's real arithmetic (binary64 compute,
binary32 `REAL` storage) the restore holds only up to rounding — see the
rounding-faithful round-trip development below. -/
theorem create_then_delete_empenho_roundtrip :
    ∀ (s : Store) (num sec val desc now : String) (s1 : Store),
    (s.notas.map (fun n => n.numero)).Nodup →
    (∀ e ∈ s.empenhos, e.id < s.nextId) →
    registrar_empenho s num sec val desc now = .ok s1 →
    ∃ s2, delete_empenho s1 s.nextId = .ok s2 ∧
      s2.notas = s.notas ∧ s2.empenhos = s.empenhos := by
  intro s num sec val desc now s1 hnodup hid hcreate
  unfold registrar_empenho at hcreate
  repeat' split at hcreate
  all_goals try exact Except.noConfusion hcreate
  all_goals
    rename_i v hv n hfind hngt hdesc
  all_goals
    exact save_empenho_delete_roundtrip s _ n s1 hnodup hid
      (List.mem_of_find?_eq_some hfind)
      (by simpa using List.find?_some hfind) hcreate

set_option maxRecDepth 10000 in
/-- The exact round trip at concrete inputs: create a commitment of 10 on
the balance-10 note, delete it, and the note is back with balance 10. -/
theorem create_then_delete_empenho_roundtrip_witness :
    (exS4.notas.map (fun n => n.numero)).Nodup ∧
    (∀ e ∈ exS4.empenhos, e.id < exS4.nextId) ∧
    registrar_empenho exS4 "NC000001" "SR1" "10" "emp"
      "05/10/2025 13:00:00" = .ok exS5 ∧
    (∃ s2, delete_empenho exS5 exS4.nextId = .ok s2 ∧
      s2.notas = exS4.notas ∧ s2.empenhos = exS4.empenhos) :=
  ⟨by decide, by decide, by with_unfolding_all decide,
   create_then_delete_empenho_roundtrip exS4 "NC000001" "SR1" "10" "emp"
     "05/10/2025 13:00:00" exS5 (by decide) (by decide)
     (by with_unfolding_all decide)⟩

/-! ## C9: the listing order is string order, not chronological order -/

/-- C9 counterexample: a note created on 31/12/2025 23:59:59 is listed
before a note created one second later (01/01/2026 00:00:00), although the
latter is the more recent — `ORDER BY data_criacao DESC` sorts the
`DD/MM/YYYY HH:MM:SS` strings, which disagrees with chronological order
across month and year boundaries. -/
theorem load_notas_not_chronological :
    load_notas exTurnOfYear none = [exNotaVelha, exNotaNova] ∧
    specChronoKey exNotaVelha.data_criacao <
      specChronoKey exNotaNova.data_criacao := by
  exact ⟨by decide, by decide⟩

/-- C9 amended: `load_notas` returns exactly the (optionally filtered)
notes, ordered by the `data_criacao` **string** in descending
lexicographic order — which coincides with newest-first only while
the day/month/year string order agrees with the calendar. -/
theorem load_notas_sorted_desc_string :
    ∀ (s : Store) (f? : Option String),
    (load_notas s f?).Sorted notaDesc ∧
    (load_notas s f?).Perm
      (match f? with
       | some c => s.notas.filter (fun n => n.natureza_despesa_codigo == c)
       | none => s.notas) := by
  intro s f?
  exact ⟨List.sorted_insertionSort notaDesc _, List.perm_insertionSort notaDesc _⟩

end Ledger

/-! ## The reachable-state balance invariant of the exact idealization -/

namespace Ledger

theorem empSum_cons (num : String) (e : Empenho) (l : List Empenho) :
    empSum num (e :: l) =
      (if e.numero_nota == num then e.valor else 0) + empSum num l := by
  unfold empSum
  rw [List.filter_cons]
  by_cases h : (e.numero_nota == num) = true
  · simp [h]
  · simp [h]

theorem empSum_nil (num : String) : empSum num [] = 0 := rfl

theorem empSum_append (num : String) (l : List Empenho) (e : Empenho) :
    empSum num (l ++ [e]) =
      empSum num l + (if e.numero_nota == num then e.valor else 0) := by
  unfold empSum
  rw [List.filter_append, List.map_append, List.sum_append]
  congr 1
  by_cases h : (e.numero_nota == num) = true
  · simp [h]
  · simp [h]

theorem empSum_nonneg (num : String) (l : List Empenho)
    (h : ∀ e ∈ l, 0 < e.valor) : 0 ≤ empSum num l := by
  apply List.sum_nonneg
  intro x hx
  obtain ⟨e, he, rfl⟩ := List.mem_map.mp hx
  exact le_of_lt (h e (List.mem_of_mem_filter he))

theorem empSum_eq_zero (num : String) (l : List Empenho)
    (h : ∀ e ∈ l, e.numero_nota ≠ num) : empSum num l = 0 := by
  unfold empSum
  have : l.filter (fun e => e.numero_nota == num) = [] := by
    apply List.filter_eq_nil_iff.mpr
    intro e he hbe
    exact h e he (by simpa using hbe)
  rw [this]
  rfl

theorem empSum_filter (num : String) (l : List Empenho) (p : Empenho → Bool)
    (hp : ∀ e ∈ l, e.numero_nota = num → p e = true) :
    empSum num (l.filter p) = empSum num l := by
  induction l with
  | nil => rfl
  | cons e t ih =>
    have iht : empSum num (t.filter p) = empSum num t :=
      ih (fun x hx => hp x (List.mem_cons_of_mem e hx))
    rw [List.filter_cons]
    by_cases hpe : p e = true
    · rw [if_pos hpe, empSum_cons, empSum_cons, iht]
    · have hnume : (e.numero_nota == num) = false := by
        rw [beq_eq_false_iff_ne]
        intro hEq
        exact hpe (hp e (List.mem_cons_self e t) hEq)
      rw [if_neg hpe, empSum_cons, hnume, iht]
      simp

theorem empSum_remove (num : String) (i : Nat) (e : Empenho) :
    ∀ (l : List Empenho), (l.map (fun x => x.id)).Nodup →
    l.find? (fun x => x.id == i) = some e →
    empSum num (l.filter (fun x => !(x.id == i))) =
      empSum num l - (if e.numero_nota == num then e.valor else 0) := by
  intro l
  induction l with
  | nil => intro _ h; exact Option.noConfusion h
  | cons h t ih =>
    intro hnodup hfind
    rw [List.map_cons, List.nodup_cons] at hnodup
    by_cases hh : (h.id == i) = true
    · simp only [List.find?_cons, hh, if_pos] at hfind
      injection hfind with hfind
      subst hfind
      have hkeep : t.filter (fun x => !(x.id == i)) = t := by
        apply List.filter_eq_self.mpr
        intro x hx
        have : x.id ≠ i := by
          intro hxi
          apply hnodup.1
          have hhi : h.id = i := beq_iff_eq.mp hh
          rw [hhi, ← hxi]
          exact List.mem_map_of_mem (fun x => x.id) hx
        simp [this]
      rw [List.filter_cons, if_neg (by simp [hh]), hkeep, empSum_cons]
      ring
    · simp only [List.find?_cons, hh, if_neg] at hfind
      have iht := ih hnodup.2 hfind
      rw [List.filter_cons, if_pos (by simp [hh]), empSum_cons, empSum_cons, iht]
      ring

theorem empSum_map_preserve (num : String) (g : Empenho → Empenho)
    (h1 : ∀ e, (g e).numero_nota = e.numero_nota)
    (h2 : ∀ e, (g e).valor = e.valor) :
    ∀ l, empSum num (l.map g) = empSum num l := by
  intro l
  induction l with
  | nil => rfl
  | cons e t ih =>
    rw [List.map_cons, empSum_cons, empSum_cons, ih, h1, h2]

theorem map_numero_eq (f : Nota → Nota) (hf : ∀ n, (f n).numero = n.numero)
    (l : List Nota) :
    (l.map f).map (fun n => n.numero) = l.map (fun n => n.numero) := by
  rw [List.map_map]
  exact List.map_congr_left (fun n _ => hf n)

end Ledger

namespace Ledger

theorem inv_adicionar_plano (s s' : Store) (c : String) (hInv : Inv s)
    (h : adicionar_plano_interno s c = .ok s') : Inv s' := by
  unfold adicionar_plano_interno save_plano_interno at h
  repeat' split at h
  all_goals first
    | exact Except.noConfusion h
    | (injection h with h; subst h; exact hInv)

theorem inv_adicionar_natureza (s s' : Store) (p c : String) (hInv : Inv s)
    (h : adicionar_natureza_despesa s p c = .ok s') : Inv s' := by
  unfold adicionar_natureza_despesa save_natureza_despesa at h
  repeat' split at h
  all_goals first
    | exact Except.noConfusion h
    | (injection h with h; subst h; exact hInv)

theorem inv_adicionar_secao (s s' : Store) (c : String) (hInv : Inv s)
    (h : adicionar_secao_requisitante s c = .ok s') : Inv s' := by
  unfold adicionar_secao_requisitante save_secao_requisitante at h
  repeat' split at h
  all_goals first
    | exact Except.noConfusion h
    | (injection h with h; subst h; exact hInv)

theorem inv_cascadeNotas (s : Store) (p : Nota → Bool) (hInv : Inv s) :
    Inv (cascadeNotas s p) := by
  obtain ⟨hN, hE, hdupN, hdupE⟩ := hInv
  refine ⟨?_, ?_, ?_, ?_⟩
  · intro n hn
    have hn2 : n ∈ s.notas.filter (fun x => !(p x)) := hn
    have hn' : n ∈ s.notas := List.mem_of_mem_filter hn2
    have hkeepn : p n = false := by simpa using List.of_mem_filter hn2
    obtain ⟨hp, he, hg⟩ := hN n hn'
    refine ⟨hp, ?_, hg⟩
    show n.valor_restante = n.valor - empSum n.numero (s.empenhos.filter _)
    rw [empSum_filter]
    · exact he
    · intro e hee hnum
      show (!((s.notas.filter p).any fun d => d.numero == e.numero_nota)) = true
      cases hany : ((s.notas.filter p).any fun d => d.numero == e.numero_nota) with
      | false => rfl
      | true =>
        exfalso
        obtain ⟨d, hd, hdn⟩ := List.any_eq_true.mp hany
        have hdmem : d ∈ s.notas := List.mem_of_mem_filter hd
        have hdp : p d = true := List.of_mem_filter hd
        have hdeq : d = n := by
          apply List.inj_on_of_nodup_map hdupN hdmem hn'
          rw [beq_iff_eq.mp hdn, hnum]
        rw [hdeq] at hdp
        rw [hdp] at hkeepn
        exact Bool.noConfusion hkeepn
  · intro e he'
    have he2 : e ∈ s.empenhos.filter (fun x =>
        !((s.notas.filter p).any (fun d => d.numero == x.numero_nota))) := he'
    have he0 : e ∈ s.empenhos := List.mem_of_mem_filter he2
    have hkeep : ((s.notas.filter p).any
        (fun d => d.numero == e.numero_nota)) = false := by
      simpa using List.of_mem_filter he2
    obtain ⟨hp, ⟨x, hx, hxn⟩, hid⟩ := hE e he0
    refine ⟨hp, ⟨x, ?_, hxn⟩, hid⟩
    show x ∈ (cascadeNotas s p).notas
    have hq : (!(p x)) = true := by
      cases hpx : p x with
      | false => rfl
      | true =>
        exfalso
        have hxdead : x ∈ s.notas.filter p := List.mem_filter.mpr ⟨hx, hpx⟩
        have hany : ((s.notas.filter p).any
            (fun d => d.numero == e.numero_nota)) = true :=
          any_of_mem_of_true hxdead (by simp [hxn])
        rw [hany] at hkeep
        exact Bool.noConfusion hkeep
    exact List.mem_filter.mpr ⟨hx, hq⟩
  · exact hdupN.sublist (List.Sublist.map _ (List.filter_sublist _))
  · exact hdupE.sublist (List.Sublist.map _ (List.filter_sublist _))

end Ledger

namespace Ledger

theorem inv_delete_nota (s s' : Store) (numero : String) (hInv : Inv s)
    (h : delete_nota s numero = .ok s') : Inv s' := by
  injection h with h
  subst h
  exact inv_cascadeNotas s _ hInv

theorem inv_delete_natureza (s s' : Store) (c : String) (hInv : Inv s)
    (h : delete_natureza_despesa s c = .ok s') : Inv s' := by
  injection h with h
  subst h
  exact inv_cascadeNotas s _ hInv

theorem inv_delete_plano (s s' : Store) (c : String) (hInv : Inv s)
    (h : delete_plano_interno s c = .ok s') : Inv s' := by
  injection h with h
  subst h
  exact inv_cascadeNotas s _ hInv

theorem inv_delete_secao (s s' : Store) (c : String) (hInv : Inv s)
    (h : delete_secao_requisitante s c = .ok s') : Inv s' := by
  injection h with h
  subst h
  obtain ⟨hN, hE, hdupN, hdupE⟩ := hInv
  have hnum : ∀ e : Empenho,
      ((if e.secao_requisitante_codigo == some c then
        { e with secao_requisitante_codigo := none } else e) : Empenho).numero_nota
        = e.numero_nota := by
    intro e
    split <;> rfl
  have hval : ∀ e : Empenho,
      ((if e.secao_requisitante_codigo == some c then
        { e with secao_requisitante_codigo := none } else e) : Empenho).valor
        = e.valor := by
    intro e
    split <;> rfl
  have hid : ∀ e : Empenho,
      ((if e.secao_requisitante_codigo == some c then
        { e with secao_requisitante_codigo := none } else e) : Empenho).id
        = e.id := by
    intro e
    split <;> rfl
  refine ⟨?_, ?_, hdupN, ?_⟩
  · intro n hn
    obtain ⟨hp, he, hg⟩ := hN n hn
    refine ⟨hp, ?_, hg⟩
    show n.valor_restante = n.valor - empSum n.numero (s.empenhos.map
      (fun e => if e.secao_requisitante_codigo == some c then
        { e with secao_requisitante_codigo := none } else e))
    rw [empSum_map_preserve _ _ hnum hval]
    exact he
  · intro e' he'
    obtain ⟨e, he, rfl⟩ := List.mem_map.mp he'
    obtain ⟨hp, ⟨x, hx, hxn⟩, hlt⟩ := hE e he
    refine ⟨?_, ⟨x, hx, ?_⟩, ?_⟩
    · rw [hval]
      exact hp
    · rw [hnum]
      exact hxn
    · rw [hid]
      exact hlt
  · show (((s.empenhos.map
        (fun e => if e.secao_requisitante_codigo == some c then
          { e with secao_requisitante_codigo := none } else e))).map
        (fun e => e.id)).Nodup
    rw [List.map_map]
    have : ∀ x ∈ s.empenhos,
        ((fun e => e.id) ∘ (fun e : Empenho =>
          if e.secao_requisitante_codigo == some c then
            { e with secao_requisitante_codigo := none } else e)) x =
        (fun e : Empenho => e.id) x := by
      intro x _
      simp only [Function.comp_apply]
      rw [hid]
    rw [List.map_congr_left this]
    exact hdupE

end Ledger

namespace Ledger

theorem inv_delete_empenho (s s' : Store) (i : Nat) (hInv : Inv s)
    (h : delete_empenho s i = .ok s') : Inv s' := by
  obtain ⟨hN, hE, hdupN, hdupE⟩ := hInv
  unfold delete_empenho at h
  split at h
  · exact Except.noConfusion h
  · rename_i e hfind
    injection h with h
    subst h
    have hmemE : e ∈ s.empenhos := List.mem_of_find?_eq_some hfind
    obtain ⟨hpe, hnoteE, hlte⟩ := hE e hmemE
    have hrem := empSum_remove (i := i) (e := e) (l := s.empenhos)
    refine ⟨?_, ?_, ?_, ?_⟩
    · intro x' hx'
      obtain ⟨x, hx, rfl⟩ := List.mem_map.mp hx'
      obtain ⟨hp, heq, hg⟩ := hN x hx
      by_cases hc : (x.numero == e.numero_nota) = true
      · rw [if_pos hc]
        refine ⟨hp, ?_, ?_⟩
        · show x.valor_restante + e.valor =
            x.valor - empSum x.numero (s.empenhos.filter (fun y => !(y.id == i)))
          rw [hrem x.numero hdupE hfind,
              if_pos (by simpa using (beq_iff_eq.mp hc).symm)]
          rw [heq]
          ring
        · show (0:ℚ) ≤ x.valor_restante + e.valor
          exact add_nonneg hg (le_of_lt hpe)
      · rw [if_neg hc]
        refine ⟨hp, ?_, hg⟩
        show x.valor_restante =
          x.valor - empSum x.numero (s.empenhos.filter (fun y => !(y.id == i)))
        rw [hrem x.numero hdupE hfind,
            if_neg (by simp; intro hEq; exact absurd (by simp [hEq]) hc), sub_zero]
        exact heq
    · intro x hxmem
      have hx0 : x ∈ s.empenhos := List.mem_of_mem_filter hxmem
      obtain ⟨hp, ⟨y, hy, hyn⟩, hid⟩ := hE x hx0
      refine ⟨hp, ?_, hid⟩
      by_cases hc : (y.numero == e.numero_nota) = true
      · refine ⟨{ y with valor_restante := y.valor_restante + e.valor }, ?_, hyn⟩
        have h2 := List.mem_map_of_mem (fun m : Nota =>
          if m.numero == e.numero_nota then
            { m with valor_restante := m.valor_restante + e.valor } else m) hy
        simpa [hc] using h2
      · refine ⟨y, ?_, hyn⟩
        have h2 := List.mem_map_of_mem (fun m : Nota =>
          if m.numero == e.numero_nota then
            { m with valor_restante := m.valor_restante + e.valor } else m) hy
        simpa [hc] using h2
    · show ((s.notas.map (fun m : Nota =>
          if m.numero == e.numero_nota then
            { m with valor_restante := m.valor_restante + e.valor }
          else m)).map (fun n => n.numero)).Nodup
      rw [map_numero_eq]
      · exact hdupN
      · intro m
        show (if m.numero == e.numero_nota then
          { m with valor_restante := m.valor_restante + e.valor }
          else m).numero = m.numero
        split <;> rfl
    · exact hdupE.sublist (List.Sublist.map _ (List.filter_sublist _))

end Ledger

namespace Ledger

theorem inv_save_empenho_core :
    ∀ (s : Store) (req : EmpenhoReq) (n : Nota) (s1 : Store),
    Inv s →
    n ∈ s.notas → n.numero = req.numero_nota →
    0 < req.valor → req.valor ≤ n.valor_restante →
    save_empenho s req n.numero (n.valor_restante - req.valor) = .ok s1 →
    Inv s1 := by
  intro s req n s1 hInv hmem hnum hpos hle hsave
  obtain ⟨hN, hE, hdupN, hdupE⟩ := hInv
  unfold save_empenho at hsave
  split at hsave
  · exact Except.noConfusion hsave
  · injection hsave with hsave
    subst hsave
    refine ⟨?_, ?_, ?_, ?_⟩
    · intro x' hx'
      obtain ⟨x, hx, rfl⟩ := List.mem_map.mp hx'
      obtain ⟨hp, heq, hg⟩ := hN x hx
      by_cases hc : (x.numero == n.numero) = true
      · have hxn : x = n := List.inj_on_of_nodup_map hdupN hx hmem (by simpa using hc)
        subst hxn
        rw [if_pos hc]
        refine ⟨hp, ?_, ?_⟩
        · show x.valor_restante - req.valor =
            x.valor - empSum x.numero (s.empenhos ++
              [⟨s.nextId, req.numero_nota, req.valor, req.descricao, req.data,
                req.secao_requisitante_codigo⟩])
          rw [empSum_append, if_pos (by simpa using hnum.symm), heq]
          ring
        · show (0:ℚ) ≤ x.valor_restante - req.valor
          exact sub_nonneg.mpr hle
      · rw [if_neg hc]
        refine ⟨hp, ?_, hg⟩
        show x.valor_restante =
          x.valor - empSum x.numero (s.empenhos ++
            [⟨s.nextId, req.numero_nota, req.valor, req.descricao, req.data,
              req.secao_requisitante_codigo⟩])
        rw [empSum_append, if_neg, add_zero]
        · exact heq
        · show ¬ (req.numero_nota == x.numero) = true
          simp only [beq_iff_eq]
          intro hEq
          exact hc (beq_iff_eq.mpr (hnum.trans hEq).symm)
    · intro x hxmem
      rcases List.mem_append.mp hxmem with hold | hnew
      · obtain ⟨hp, ⟨y, hy, hyn⟩, hid⟩ := hE x hold
        refine ⟨hp, ?_, Nat.lt_succ_of_lt hid⟩
        by_cases hc : (y.numero == n.numero) = true
        · refine ⟨{ y with valor_restante := n.valor_restante - req.valor }, ?_, hyn⟩
          have h2 := List.mem_map_of_mem (fun m : Nota =>
            if m.numero == n.numero then
              { m with valor_restante := n.valor_restante - req.valor } else m) hy
          simpa [hc] using h2
        · refine ⟨y, ?_, hyn⟩
          have h2 := List.mem_map_of_mem (fun m : Nota =>
            if m.numero == n.numero then
              { m with valor_restante := n.valor_restante - req.valor } else m) hy
          simpa [hc] using h2
      · have hx : x = ⟨s.nextId, req.numero_nota, req.valor, req.descricao,
            req.data, req.secao_requisitante_codigo⟩ := by simpa using hnew
        subst hx
        refine ⟨hpos, ?_, Nat.lt_succ_self _⟩
        refine ⟨{ n with valor_restante := n.valor_restante - req.valor }, ?_, hnum⟩
        have h2 := List.mem_map_of_mem (fun m : Nota =>
          if m.numero == n.numero then
            { m with valor_restante := n.valor_restante - req.valor } else m) hmem
        simpa using h2
    · show ((s.notas.map (fun m : Nota =>
          if m.numero == n.numero then
            { m with valor_restante := n.valor_restante - req.valor }
          else m)).map (fun x => x.numero)).Nodup
      rw [map_numero_eq]
      · exact hdupN
      · intro m
        show (if m.numero == n.numero then
          { m with valor_restante := n.valor_restante - req.valor }
          else m).numero = m.numero
        split <;> rfl
    · show ((s.empenhos ++
          ([⟨s.nextId, req.numero_nota, req.valor, req.descricao, req.data,
            req.secao_requisitante_codigo⟩] : List Empenho)).map
            (fun e => e.id)).Nodup
      rw [List.map_append]
      rw [List.nodup_append]
      refine ⟨hdupE, List.nodup_singleton _, ?_⟩
      intro a ha hb
      have hanext : a = s.nextId := by simpa using hb
      obtain ⟨x, hx, hxa⟩ := List.mem_map.mp ha
      have := (hE x hx).2.2
      rw [hxa, hanext] at this
      exact lt_irrefl _ this

end Ledger

namespace Ledger

theorem inv_registrar_empenho (s s' : Store) (num sec val desc now : String)
    (hInv : Inv s) (h : registrar_empenho s num sec val desc now = .ok s') :
    Inv s' := by
  unfold registrar_empenho at h
  repeat' split at h
  all_goals try exact Except.noConfusion h
  all_goals rename_i x1 v hv hvle x0 n hfind hngt hdesc
  all_goals
    exact inv_save_empenho_core s _ n s' hInv
      (List.mem_of_find?_eq_some hfind)
      (by simpa using List.find?_some hfind)
      (not_le.mp hvle) (not_lt.mp hngt) h

end Ledger

namespace Ledger

theorem nodup_append_fresh (l : List Nota) (a : Nota)
    (hdup : (l.map (fun n => n.numero)).Nodup)
    (hfr : ∀ x ∈ l, x.numero ≠ a.numero) :
    ((l ++ [a]).map (fun n => n.numero)).Nodup := by
  rw [List.map_append, List.nodup_append]
  refine ⟨hdup, List.nodup_singleton _, ?_⟩
  intro b hb hb2
  have hba : b = a.numero := by simpa using hb2
  obtain ⟨x, hx, hxa⟩ := List.mem_map.mp hb
  exact hfr x hx (by rw [hxa, hba])

theorem inv_adicionar_nota (s s' : Store) (f : NotaForm) (now : String)
    (hInv : Inv s) (h : adicionar_nota s f now = .ok s') : Inv s' := by
  obtain ⟨hN, hE, hdupN, hdupE⟩ := hInv
  unfold adicionar_nota save_nota at h
  repeat' split at h
  all_goals try exact Except.noConfusion h
  all_goals rename_i x0 v hv hvle hdesc hobs hfresh
  all_goals injection h with h
  all_goals subst h
  all_goals
    have hfreshAny : ∀ x ∈ s.notas, x.numero ≠ strUpper f.numero := by
      intro x hx hEq
      apply hfresh
      have h1 : (s.notas.any (fun m => m.numero == strUpper f.numero)) = true :=
        any_of_mem_of_true hx (by simp [hEq])
      simp [h1]
  all_goals
    have hnoEmp : ∀ e ∈ s.empenhos, e.numero_nota ≠ strUpper f.numero := by
      intro e he hEq
      obtain ⟨_, ⟨x, hx, hxn⟩, _⟩ := hE e he
      exact hfreshAny x hx (hxn.trans hEq)
  all_goals refine ⟨?_, ?_, ?_, hdupE⟩
  all_goals first
    | (intro a ha
       rcases List.mem_append.mp ha with hold | hnew
       · exact hN a hold
       · (have hae := List.mem_singleton.mp hnew
          subst hae
          refine ⟨not_le.mp hvle, ?_, le_of_lt (not_le.mp hvle)⟩
          show v = v - empSum (strUpper f.numero) s.empenhos
          rw [empSum_eq_zero _ _ hnoEmp, sub_zero]))
    | (intro a ha
       obtain ⟨hp, ⟨y, hy, hyn⟩, hid⟩ := hE a ha
       exact ⟨hp, ⟨y, List.mem_append_left _ hy, hyn⟩, hid⟩)
    | exact nodup_append_fresh s.notas _ hdupN hfreshAny

end Ledger

namespace Ledger

theorem inv_empty : Inv Store.empty := by
  refine ⟨?_, ?_, ?_, ?_⟩
  · intro n hn
    exact absurd hn (by simp [Store.empty])
  · intro e he
    exact absurd he (by simp [Store.empty])
  · simp [Store.empty]
  · simp [Store.empty]

theorem inv_reach : ∀ s, Reach s → Inv s := by
  intro s h
  induction h with
  | init => exact inv_empty
  | plano hr hstep ih => exact inv_adicionar_plano _ _ _ ih hstep
  | natureza hr hstep ih => exact inv_adicionar_natureza _ _ _ _ ih hstep
  | secao hr hstep ih => exact inv_adicionar_secao _ _ _ ih hstep
  | nota hr hstep ih => exact inv_adicionar_nota _ _ _ _ ih hstep
  | empenho hr hstep ih => exact inv_registrar_empenho _ _ _ _ _ _ _ ih hstep
  | delNota hr hstep ih => exact inv_delete_nota _ _ _ ih hstep
  | delEmpenho hr hstep ih => exact inv_delete_empenho _ _ _ ih hstep
  | delPlano hr hstep ih => exact inv_delete_plano _ _ _ ih hstep
  | delNatureza hr hstep ih => exact inv_delete_natureza _ _ _ ih hstep
  | delSecao hr hstep ih => exact inv_delete_secao _ _ _ ih hstep

theorem reach_exS5 : Reach exS5 := by
  have h1 : Reach (⟨["PI001"], [], [], [], [], 1⟩ : Store) :=
    @Reach.plano Store.empty ⟨["PI001"], [], [], [], [], 1⟩ "PI001"
      Reach.init (by decide)
  have h2 : Reach (⟨["PI001"], [⟨"ND1", "PI001"⟩], [], [], [], 1⟩ : Store) :=
    @Reach.natureza ⟨["PI001"], [], [], [], [], 1⟩
      ⟨["PI001"], [⟨"ND1", "PI001"⟩], [], [], [], 1⟩ "PI001" "ND1"
      h1 (by decide)
  have h3 : Reach exBase :=
    @Reach.secao ⟨["PI001"], [⟨"ND1", "PI001"⟩], [], [], [], 1⟩ exBase "SR1"
      h2 (by decide)
  have h4 : Reach exS4 :=
    @Reach.nota exBase exS4
      ⟨"PI001", "ND1", "123456", "0123456789", "NC000001", "10",
       "desc", "", "01/08/2025"⟩ "05/10/2025 12:00:00"
      h3 (by with_unfolding_all decide)
  exact @Reach.empenho exS4 exS5 "NC000001" "SR1" "10" "emp"
    "05/10/2025 13:00:00" h4 (by with_unfolding_all decide)

/-- C3 counterexample: a reachable state in which a note's remaining
balance is exactly 0 — the handler allows a commitment equal to the full
remaining balance, so the claimed strict bound `0 < remaining` fails. -/
theorem reachable_zero_restante :
    Reach exS5 ∧ ∃ n ∈ exS5.notas, ¬ (0 < n.valor_restante) :=
  ⟨reach_exS5, ⟨{ exNota10 with valor_restante := 0 }, by decide, by simp⟩⟩

/-- In the exact-rational idealization of the arithmetic, every reachable
note satisfies `0 < valor` and `0 ≤ valor_restante ≤ valor`.  The upper
bound is another artifact of the idealization: under the program's real
arithmetic the `REAL` rounding of a delete-restored balance can exceed
the original value (see the rounding-faithful development below), so only
the two lower bounds survive. -/
theorem reachable_balance_invariant :
    ∀ s, Reach s → ∀ n ∈ s.notas,
      0 < n.valor ∧ 0 ≤ n.valor_restante ∧ n.valor_restante ≤ n.valor := by
  intro s hr n hn
  obtain ⟨hN, hE, _, _⟩ := inv_reach s hr
  obtain ⟨hp, heq, hg⟩ := hN n hn
  refine ⟨hp, hg, ?_⟩
  rw [heq]
  have h0 := empSum_nonneg n.numero s.empenhos (fun e he => (hE e he).1)
  linarith

/-- The exact-idealization bounds instantiated at the exhausted note of
the reachable state `exS5`. -/
theorem reachable_balance_invariant_witness :
    0 < ({ exNota10 with valor_restante := 0 } : Nota).valor ∧
    0 ≤ ({ exNota10 with valor_restante := 0 } : Nota).valor_restante ∧
    ({ exNota10 with valor_restante := 0 } : Nota).valor_restante ≤
      ({ exNota10 with valor_restante := 0 } : Nota).valor :=
  reachable_balance_invariant exS5 reach_exS5
    { exNota10 with valor_restante := 0 } (by decide)

end Ledger

namespace Ledger

/-- A `mkRat` with positive numerator and denominator is positive. -/
theorem mkRat_pos {a : Int} {b : Nat} (ha : 0 < a) (hb : 0 < b) :
    0 < mkRat a b := by
  rw [Rat.mkRat_eq_div]
  have ha' : (0 : ℚ) < (a : ℚ) := by exact_mod_cast ha
  have hb' : (0 : ℚ) < (b : ℚ) := by exact_mod_cast hb
  positivity

/-- Rounding a positive value is positive (rounding is monotone and the
rounded significand is an over- or under-approximation by less than an
ulp; here only the sign is needed, and every branch of `roundPosFP`
returns a ratio of positives). -/
theorem roundPosFP_pos {prec n d : Nat} (hn : 0 < n) (hd : 0 < d) :
    0 < roundPosFP prec n d := by
  unfold roundPosFP
  split
  · exact mkRat_pos (by exact_mod_cast hn) hd
  · rename_i hm
    have hm' : 0 < fpRoundInt (fpScaledN n (fpExp prec n d)) (fpScaledD d (fpExp prec n d)) :=
      Nat.pos_of_ne_zero hm
    have hpow1 : 0 < 2 ^ ((fpExp prec n d).toNat) := by positivity
    have hpow2 : 0 < 2 ^ ((-(fpExp prec n d)).toNat) := by positivity
    split
    · exact mkRat_pos (by exact_mod_cast Nat.mul_pos hm' hpow1) Nat.one_pos
    · exact mkRat_pos (by exact_mod_cast hm') hpow2

/-- `roundFP` preserves strict positivity. -/
theorem roundFP_pos {prec : Nat} {q : ℚ} (hq : 0 < q) : 0 < roundFP prec q := by
  unfold roundFP
  have hnum : 0 < q.num := Rat.num_pos.mpr hq
  rw [if_pos hnum]
  exact roundPosFP_pos (by omega) q.den_pos

/-- `roundFP` preserves non-negativity. -/
theorem roundFP_nonneg {prec : Nat} {q : ℚ} (hq : 0 ≤ q) : 0 ≤ roundFP prec q := by
  rcases lt_or_eq_of_le hq with h | h
  · exact le_of_lt (roundFP_pos h)
  · unfold roundFP
    rw [← h]
    norm_num

theorem invFl_empty : InvFl Store.empty := by
  constructor
  · intro n hn
    exact absurd hn (by simp [Store.empty])
  · intro e he
    exact absurd he (by simp [Store.empty])

theorem invFl_adicionar_plano (s s' : Store) (c : String) (hInv : InvFl s)
    (h : adicionar_plano_interno s c = .ok s') : InvFl s' := by
  unfold adicionar_plano_interno save_plano_interno at h
  repeat' split at h
  all_goals first
    | exact Except.noConfusion h
    | (injection h with h; subst h; exact hInv)

theorem invFl_adicionar_natureza (s s' : Store) (p c : String) (hInv : InvFl s)
    (h : adicionar_natureza_despesa s p c = .ok s') : InvFl s' := by
  unfold adicionar_natureza_despesa save_natureza_despesa at h
  repeat' split at h
  all_goals first
    | exact Except.noConfusion h
    | (injection h with h; subst h; exact hInv)

theorem invFl_adicionar_secao (s s' : Store) (c : String) (hInv : InvFl s)
    (h : adicionar_secao_requisitante s c = .ok s') : InvFl s' := by
  unfold adicionar_secao_requisitante save_secao_requisitante at h
  repeat' split at h
  all_goals first
    | exact Except.noConfusion h
    | (injection h with h; subst h; exact hInv)

theorem invFl_cascadeNotas (s : Store) (p : Nota → Bool) (hInv : InvFl s) :
    InvFl (cascadeNotas s p) := by
  obtain ⟨hN, hE⟩ := hInv
  constructor
  · intro n hn
    have hn2 : n ∈ s.notas.filter (fun x => !(p x)) := hn
    exact hN n (List.mem_of_mem_filter hn2)
  · intro e he
    have he2 : e ∈ s.empenhos.filter
        (fun e => !((s.notas.filter p).any (fun n => n.numero == e.numero_nota))) := he
    exact hE e (List.mem_of_mem_filter he2)

theorem invFl_delete_nota (s s' : Store) (numero : String) (hInv : InvFl s)
    (h : delete_nota s numero = .ok s') : InvFl s' := by
  injection h with h
  subst h
  exact invFl_cascadeNotas s _ hInv

theorem invFl_delete_plano (s s' : Store) (c : String) (hInv : InvFl s)
    (h : delete_plano_interno s c = .ok s') : InvFl s' := by
  injection h with h
  subst h
  exact invFl_cascadeNotas s _ hInv

theorem invFl_delete_natureza (s s' : Store) (c : String) (hInv : InvFl s)
    (h : delete_natureza_despesa s c = .ok s') : InvFl s' := by
  injection h with h
  subst h
  exact invFl_cascadeNotas s _ hInv

theorem invFl_delete_secao (s s' : Store) (c : String) (hInv : InvFl s)
    (h : delete_secao_requisitante s c = .ok s') : InvFl s' := by
  injection h with h
  subst h
  obtain ⟨hN, hE⟩ := hInv
  constructor
  · intro n hn
    exact hN n hn
  · intro e' he'
    have he2 : e' ∈ s.empenhos.map (fun e =>
        if e.secao_requisitante_codigo == some c then
          { e with secao_requisitante_codigo := none } else e) := he'
    obtain ⟨e, he, rfl⟩ := List.mem_map.mp he2
    have hp := hE e he
    show 0 < (if e.secao_requisitante_codigo == some c then
      { e with secao_requisitante_codigo := none } else e).valor
    split
    · exact hp
    · exact hp

theorem invFl_delete_empenho_fl (s s' : Store) (i : Nat) (hInv : InvFl s)
    (h : delete_empenho_fl s i = .ok s') : InvFl s' := by
  obtain ⟨hN, hE⟩ := hInv
  unfold delete_empenho_fl at h
  split at h
  · exact Except.noConfusion h
  · rename_i e hfind
    injection h with h
    subst h
    have hmemE : e ∈ s.empenhos := List.mem_of_find?_eq_some hfind
    have hpe : 0 < e.valor := hE e hmemE
    constructor
    · intro x' hx'
      have hx2 : x' ∈ s.notas.map (fun n =>
          if n.numero == e.numero_nota then
            { n with valor_restante := fl32 (fl64 (n.valor_restante + e.valor)) }
          else n) := hx'
      obtain ⟨x, hx, rfl⟩ := List.mem_map.mp hx2
      obtain ⟨hp, hg⟩ := hN x hx
      by_cases hc : (x.numero == e.numero_nota) = true
      · rw [if_pos hc]
        exact ⟨hp, roundFP_nonneg (roundFP_nonneg (add_nonneg hg (le_of_lt hpe)))⟩
      · rw [if_neg hc]
        exact ⟨hp, hg⟩
    · intro x hxmem
      have hx2 : x ∈ s.empenhos.filter (fun y => !(y.id == i)) := hxmem
      exact hE x (List.mem_of_mem_filter hx2)

theorem invFl_registrar_empenho_fl (s s' : Store) (num sec val desc now : String)
    (hInv : InvFl s) (h : registrar_empenho_fl s num sec val desc now = .ok s') :
    InvFl s' := by
  obtain ⟨hN, hE⟩ := hInv
  unfold registrar_empenho_fl save_empenho_fl at h
  repeat' split at h
  all_goals try exact Except.noConfusion h
  all_goals rename_i x1 v hv hvle x0 n hfind hngt hdesc hfk
  all_goals injection h with h
  all_goals subst h
  all_goals constructor
  all_goals first
    | (intro x' hx'
       obtain ⟨x, hx, rfl⟩ := List.mem_map.mp hx'
       obtain ⟨hp, hg⟩ := hN x hx
       by_cases hc : (x.numero == n.numero) = true
       · rw [if_pos hc]
         refine ⟨hp, ?_⟩
         show (0:ℚ) ≤ fl32 (fl64 (n.valor_restante - fl64 v))
         exact roundFP_nonneg (roundFP_nonneg (sub_nonneg.mpr (not_lt.mp hngt)))
       · rw [if_neg hc]
         exact ⟨hp, hg⟩)
    | (intro x hxmem
       rcases List.mem_append.mp hxmem with hold | hnew
       · exact hE x hold
       · have hx := List.mem_singleton.mp hnew
         subst hx
         show (0:ℚ) < fl32 (fl64 v)
         exact roundFP_pos (not_le.mp hvle))

theorem invFl_adicionar_nota_fl (s s' : Store) (f : NotaForm) (now : String)
    (hInv : InvFl s) (h : adicionar_nota_fl s f now = .ok s') : InvFl s' := by
  obtain ⟨hN, hE⟩ := hInv
  unfold adicionar_nota_fl save_nota at h
  repeat' split at h
  all_goals try exact Except.noConfusion h
  all_goals rename_i x0 v hv hvle hdesc hobs hfresh
  all_goals injection h with h
  all_goals subst h
  all_goals constructor
  all_goals first
    | (intro a ha
       rcases List.mem_append.mp ha with hold | hnew
       · exact hN a hold
       · have hae := List.mem_singleton.mp hnew
         subst hae
         refine ⟨?_, ?_⟩
         · show (0:ℚ) < fl32 (fl64 v)
           exact roundFP_pos (not_le.mp hvle)
         · show (0:ℚ) ≤ fl32 (fl64 v)
           exact le_of_lt (roundFP_pos (not_le.mp hvle)))
    | (intro a ha
       exact hE a ha)

/-- Every state reachable through the rounding-faithful operations
satisfies the surviving balance bounds. -/
theorem invFl_reach : ∀ s, ReachFl s → InvFl s := by
  intro s h
  induction h with
  | init => exact invFl_empty
  | plano hr hstep ih => exact invFl_adicionar_plano _ _ _ ih hstep
  | natureza hr hstep ih => exact invFl_adicionar_natureza _ _ _ _ ih hstep
  | secao hr hstep ih => exact invFl_adicionar_secao _ _ _ ih hstep
  | nota hr hstep ih => exact invFl_adicionar_nota_fl _ _ _ _ ih hstep
  | empenho hr hstep ih => exact invFl_registrar_empenho_fl _ _ _ _ _ _ _ ih hstep
  | delNota hr hstep ih => exact invFl_delete_nota _ _ _ ih hstep
  | delEmpenho hr hstep ih => exact invFl_delete_empenho_fl _ _ _ ih hstep
  | delPlano hr hstep ih => exact invFl_delete_plano _ _ _ ih hstep
  | delNatureza hr hstep ih => exact invFl_delete_natureza _ _ _ ih hstep
  | delSecao hr hstep ih => exact invFl_delete_secao _ _ _ ih hstep

end Ledger

namespace Ledger

/-- The decimal parse of the commitment input "1.5". -/
theorem parse_one_point_five : validar_numerico "1.5" = some (mkRat 3 2) := by
  with_unfolding_all decide

set_option maxRecDepth 10000 in
/-- The decimal parse of the note-value input "16777215". -/
theorem parse_big : validar_numerico "16777215" = some 16777215 := by
  have h0 : validar_numerico "16777215" =
      some ((1 : ℚ) * ((digitsToNat "16777215".data : Nat) : ℚ)) := rfl
  have hd : digitsToNat "16777215".data = 16777215 := by decide
  rw [h0, hd]
  norm_num

theorem sub_big : (16777215 : ℚ) - mkRat 3 2 = mkRat 33554427 2 := by
  rw [Rat.mkRat_eq_div, Rat.mkRat_eq_div]
  norm_num

theorem add_big : (16777214 : ℚ) + mkRat 3 2 = mkRat 33554431 2 := by
  rw [Rat.mkRat_eq_div, Rat.mkRat_eq_div]
  norm_num

theorem fl64_three_halves : fl64 (mkRat 3 2) = mkRat 3 2 := by decide

theorem fl32_three_halves : fl32 (mkRat 3 2) = mkRat 3 2 := by decide

/-- 16777213.5 fits in 53 bits: the binary64 subtraction is exact. -/
theorem fl64_sub_big : fl64 (mkRat 33554427 2) = mkRat 33554427 2 := by decide

/-- 16777213.5 needs 25 significand bits: the `REAL` store rounds it to
the even neighbour 16777214. -/
theorem fl32_sub_big : fl32 (mkRat 33554427 2) = 16777214 := by decide

/-- 16777215.5 fits in 53 bits: the double addition is exact. -/
theorem fl64_add_big : fl64 (mkRat 33554431 2) = mkRat 33554431 2 := by decide

/-- 16777215.5 needs 25 significand bits: the `REAL` store rounds it to
the even neighbour 16777216. -/
theorem fl32_add_big : fl32 (mkRat 33554431 2) = 16777216 := by decide

theorem fl64_big : fl64 (16777215 : ℚ) = 16777215 := by decide

theorem fl32_big : fl32 (16777215 : ℚ) = 16777215 := by decide

set_option maxRecDepth 10000 in
theorem nota_fl_step :
    adicionar_nota_fl exBase
      ⟨"PI001", "ND1", "123456", "0123456789", "NC000002", "16777215",
       "desc", "", "01/08/2025"⟩ "05/10/2025 12:00:00" = .ok exFlBig := by
  simp only [adicionar_nota_fl, parse_big]
  rw [if_neg (by decide), if_neg (by decide), if_neg (by decide),
      if_neg (by decide), if_neg (by decide)]
  rw [if_neg (show ¬ fl64 16777215 ≤ 0 by decide)]
  rw [fl64_big, fl32_big]
  simp only [save_nota]
  rw [if_neg (by decide)]
  decide

set_option maxRecDepth 10000 in
theorem empenho_fl_step :
    registrar_empenho_fl exFlBig "NC000002" "SR1" "1.5" "emp"
      "05/10/2025 13:00:00" = .ok exFlBig1 := by
  have hfind : exFlBig.notas.find? (fun n => n.numero == "NC000002") =
      some exNotaBig := by decide
  simp only [registrar_empenho_fl, parse_one_point_five, hfind]
  rw [if_neg (by decide)]
  rw [if_neg (show ¬ fl64 (mkRat 3 2) ≤ 0 by decide)]
  rw [if_neg (show ¬ fl64 (mkRat 3 2) > exNotaBig.valor_restante by decide)]
  rw [fl64_three_halves]
  rw [show exNotaBig.valor_restante = (16777215 : ℚ) from rfl]
  rw [sub_big, fl64_sub_big]
  simp only [save_empenho_fl]
  rw [if_neg (by decide)]
  rw [fl32_three_halves, fl32_sub_big]
  decide

set_option maxRecDepth 10000 in
theorem delete_fl_step :
    delete_empenho_fl exFlBig1 1 = .ok exFlBig2 := by
  have hfind : exFlBig1.empenhos.find? (fun e => e.id == 1) =
      some ⟨1, "NC000002", mkRat 3 2, "emp", "05/10/2025 13:00:00",
        some "SR1"⟩ := by decide
  simp only [delete_empenho_fl, hfind]
  have hmap : exFlBig1.notas.map (fun n =>
      if n.numero == "NC000002" then
        { n with valor_restante := fl32 (fl64 (n.valor_restante + mkRat 3 2)) }
      else n) =
      [{ exNotaBig with
          valor_restante := fl32 (fl64 ((16777214 : ℚ) + mkRat 3 2)) }] := rfl
  rw [hmap]
  rw [show fl32 (fl64 ((16777214 : ℚ) + mkRat 3 2)) = (16777216 : ℚ) from by
    rw [add_big, fl64_add_big, fl32_add_big]]
  decide

/-- The 2²⁴-boundary state is reachable from the empty database through
the rounding-faithful operations. -/
theorem reach_fl_big2 : ReachFl exFlBig2 := by
  have h1 : ReachFl (⟨["PI001"], [], [], [], [], 1⟩ : Store) :=
    @ReachFl.plano Store.empty ⟨["PI001"], [], [], [], [], 1⟩ "PI001"
      ReachFl.init (by decide)
  have h2 : ReachFl (⟨["PI001"], [⟨"ND1", "PI001"⟩], [], [], [], 1⟩ : Store) :=
    @ReachFl.natureza ⟨["PI001"], [], [], [], [], 1⟩
      ⟨["PI001"], [⟨"ND1", "PI001"⟩], [], [], [], 1⟩ "PI001" "ND1"
      h1 (by decide)
  have h3 : ReachFl exBase :=
    @ReachFl.secao ⟨["PI001"], [⟨"ND1", "PI001"⟩], [], [], [], 1⟩ exBase "SR1"
      h2 (by decide)
  have h4 : ReachFl exFlBig :=
    @ReachFl.nota exBase exFlBig
      ⟨"PI001", "ND1", "123456", "0123456789", "NC000002", "16777215",
       "desc", "", "01/08/2025"⟩ "05/10/2025 12:00:00"
      h3 nota_fl_step
  have h5 : ReachFl exFlBig1 :=
    @ReachFl.empenho exFlBig exFlBig1 "NC000002" "SR1" "1.5" "emp"
      "05/10/2025 13:00:00" h4 empenho_fl_step
  exact @ReachFl.delEmpenho exFlBig1 exFlBig2 1 h5 delete_fl_step

end Ledger

namespace Ledger

/-! ## C2: the create-then-delete round trip under the real arithmetic -/

/-- The transaction pair of the round trip with the program's rounding:
`save_empenho_fl` stores the commitment (binary32) and the decremented
balance (binary32 of the binary64 difference); `delete_empenho_fl` of the
fresh serial id adds the stored value back (binary64, then binary32).  The
commitment table is restored exactly; the note's balance becomes the
fourfold-rounded expression below, not in general its old value. -/
theorem save_empenho_fl_delete_roundtrip :
    ∀ (s : Store) (req : EmpenhoReq) (n : Nota) (s1 : Store),
    (∀ e ∈ s.empenhos, e.id < s.nextId) →
    n ∈ s.notas → n.numero = req.numero_nota →
    save_empenho_fl s req n.numero (fl64 (n.valor_restante - req.valor)) = .ok s1 →
    ∃ s2, delete_empenho_fl s1 s.nextId = .ok s2 ∧
      s2.empenhos = s.empenhos ∧
      ∃ n2 ∈ s2.notas, n2.numero = n.numero ∧
        n2.valor_restante =
          fl32 (fl64 (fl32 (fl64 (n.valor_restante - req.valor)) + fl32 req.valor)) := by
  intro s req n s1 hid hmem hnum hsave
  unfold save_empenho_fl at hsave
  split at hsave
  · exact Except.noConfusion hsave
  · injection hsave with hsave
    subst hsave
    unfold delete_empenho_fl
    have hfindnew : (s.empenhos ++
        ([⟨s.nextId, req.numero_nota, fl32 req.valor, req.descricao, req.data,
          req.secao_requisitante_codigo⟩] : List Empenho)).find?
          (fun x => x.id == s.nextId) =
        some (⟨s.nextId, req.numero_nota, fl32 req.valor, req.descricao,
          req.data, req.secao_requisitante_codigo⟩ : Empenho) := by
      rw [List.find?_append]
      have h1 : s.empenhos.find? (fun x => x.id == s.nextId) = none := by
        rw [List.find?_eq_none]
        intro e he
        simp [Nat.ne_of_lt (hid e he)]
      rw [h1]
      simp
    rw [hfindnew]
    refine ⟨_, rfl, ?_, ?_⟩
    · show List.filter _ (s.empenhos ++ _) = s.empenhos
      rw [List.filter_append]
      have h1 : s.empenhos.filter (fun x => !(x.id == s.nextId)) = s.empenhos := by
        apply List.filter_eq_self.mpr
        intro e he
        simp [Nat.ne_of_lt (hid e he)]
      have h2 : List.filter (fun x => !(x.id == s.nextId))
          [(⟨s.nextId, req.numero_nota, fl32 req.valor, req.descricao,
            req.data, req.secao_requisitante_codigo⟩ : Empenho)] = [] := by
        simp
      rw [h1, h2, List.append_nil]
    · refine ⟨{ n with valor_restante := fl32 (fl64 (fl32 (fl64 (n.valor_restante - req.valor)) + fl32 req.valor)) }, ?_, rfl, rfl⟩
      show _ ∈ (s.notas.map _).map _
      have h2 := List.mem_map_of_mem (fun m : Nota =>
        if m.numero == req.numero_nota then
          { m with valor_restante := fl32 (fl64 (m.valor_restante + fl32 req.valor)) }
        else m)
        (List.mem_map_of_mem (fun m : Nota =>
          if m.numero == n.numero then
            { m with valor_restante := fl32 (fl64 (n.valor_restante - req.valor)) }
          else m) hmem)
      simpa [hnum] using h2

/-- C2 amended: creating a commitment of value `v` through the handler and
then deleting it restores the commitment table exactly, but the note's
remaining balance only up to rounding: it becomes
`fl32 (fl64 (fl32 (fl64 (r − fl64 v)) + fl32 (fl64 v)))` (binary64 for
each Python/SQL arithmetic step, binary32 for each `REAL` store), which
equals the old balance `r` exactly when every rounding involved is exact —
e.g. for small two-decimal amounts — but not in general. -/
theorem create_then_delete_empenho_fl_roundtrip :
    ∀ (s s1 : Store) (num sec val desc now : String) (n : Nota) (v : ℚ),
    (∀ e ∈ s.empenhos, e.id < s.nextId) →
    s.notas.find? (fun x => x.numero == num) = some n →
    validar_numerico val = some v →
    registrar_empenho_fl s num sec val desc now = .ok s1 →
    ∃ s2, delete_empenho_fl s1 s.nextId = .ok s2 ∧
      s2.empenhos = s.empenhos ∧
      ∃ n2 ∈ s2.notas, n2.numero = n.numero ∧
        n2.valor_restante =
          fl32 (fl64 (fl32 (fl64 (n.valor_restante - fl64 v)) + fl32 (fl64 v))) ∧
        (fl64 v = v → fl32 v = v →
         fl64 (n.valor_restante - v) = n.valor_restante - v →
         fl32 (n.valor_restante - v) = n.valor_restante - v →
         fl64 n.valor_restante = n.valor_restante →
         fl32 n.valor_restante = n.valor_restante →
         n2.valor_restante = n.valor_restante) := by
  intro s s1 num sec val desc now n v hid hfind hparse hcreate
  unfold registrar_empenho_fl at hcreate
  repeat' split at hcreate
  all_goals try exact Except.noConfusion hcreate
  all_goals rename_i x1 v' hv' hvle x0 n' hfind' hngt hdesc
  all_goals rw [hparse] at hv'
  all_goals injection hv' with hv'
  all_goals subst hv'
  all_goals rw [hfind] at hfind'
  all_goals injection hfind' with hfind'
  all_goals subst hfind'
  all_goals
    obtain ⟨s2, hdel, hemp, n2, hn2, hnum2, hval2⟩ :=
      save_empenho_fl_delete_roundtrip s _ n s1 hid
        (List.mem_of_find?_eq_some hfind)
        (by simpa using List.find?_some hfind) hcreate
  all_goals refine ⟨s2, hdel, hemp, n2, hn2, hnum2, hval2, ?_⟩
  all_goals intro h1 h2 h3 h4 h5 h6
  all_goals rw [hval2, h1, h3, h4, h2]
  all_goals have hc : n.valor_restante - v + v = n.valor_restante := by ring
  all_goals rw [hc, h5, h6]

set_option maxRecDepth 10000 in
/-- C2 witness: for the balance-10 note and value 10 every rounding is
exact (small integers are representable in 24 bits and the differences are
exact), so the round trip restores balance 10 exactly. -/
theorem create_then_delete_empenho_fl_roundtrip_witness :
    (∀ e ∈ exS4.empenhos, e.id < exS4.nextId) ∧
    exS4.notas.find? (fun x => x.numero == "NC000001") = some exNota10 ∧
    validar_numerico "10" = some 10 ∧
    registrar_empenho_fl exS4 "NC000001" "SR1" "10" "emp"
      "05/10/2025 13:00:00" = .ok exS5 ∧
    (∃ s2, delete_empenho_fl exS5 exS4.nextId = .ok s2 ∧
      s2.empenhos = exS4.empenhos ∧
      ∃ n2 ∈ s2.notas, n2.numero = exNota10.numero ∧
        n2.valor_restante =
          fl32 (fl64 (fl32 (fl64 (exNota10.valor_restante - fl64 10)) +
            fl32 (fl64 10))) ∧
        (fl64 (10:ℚ) = 10 → fl32 (10:ℚ) = 10 →
         fl64 (exNota10.valor_restante - 10) = exNota10.valor_restante - 10 →
         fl32 (exNota10.valor_restante - 10) = exNota10.valor_restante - 10 →
         fl64 exNota10.valor_restante = exNota10.valor_restante →
         fl32 exNota10.valor_restante = exNota10.valor_restante →
         n2.valor_restante = exNota10.valor_restante)) :=
  ⟨by decide, by decide, by with_unfolding_all decide,
   by with_unfolding_all decide,
   create_then_delete_empenho_fl_roundtrip exS4 exS5 "NC000001" "SR1" "10"
     "emp" "05/10/2025 13:00:00" exNota10 10 (by decide) (by decide)
     (by with_unfolding_all decide) (by with_unfolding_all decide)⟩

/-- C2 counterexample: on the note of value 16777215 = 2²⁴ − 1, creating a
commitment of 1.5 stores the decremented balance 16777213.5 rounded to the
`REAL` value 16777214, and deleting the commitment stores
16777214 + 1.5 = 16777215.5 rounded to 16777216: the remaining balance
after the round trip differs from the balance before it. -/
theorem registrar_empenho_fl_roundtrip_not_exact :
    registrar_empenho_fl exFlBig "NC000002" "SR1" "1.5" "emp"
      "05/10/2025 13:00:00" = .ok exFlBig1 ∧
    delete_empenho_fl exFlBig1 1 = .ok exFlBig2 ∧
    exFlBig.notas.map (fun n => n.valor_restante) = [16777215] ∧
    exFlBig2.notas.map (fun n => n.valor_restante) = [16777216] ∧
    (16777216 : ℚ) ≠ 16777215 :=
  ⟨empenho_fl_step, delete_fl_step, by decide, by decide, by decide⟩

/-! ## C3: the reachable-state balance bounds under the real arithmetic -/

/-- C3 amended: in every state reachable through the rounding-faithful
operations, every note has a positive original value and a non-negative
remaining balance.  Neither dropped bound can be restored: `0 < remaining`
fails because full exhaustion is allowed (the exact-model counterexample),
and `remaining ≤ original` fails in a reachable state — the 2²⁴-boundary
round trip leaves remaining 16777216 on the note of original value
16777215. -/
theorem reachable_fl_balance_bounds :
    (∀ s, ReachFl s → ∀ n ∈ s.notas, 0 < n.valor ∧ 0 ≤ n.valor_restante) ∧
    (∃ s, ReachFl s ∧ ∃ n ∈ s.notas, n.valor < n.valor_restante) := by
  constructor
  · intro s hs n hn
    exact (invFl_reach s hs).1 n hn
  · exact ⟨exFlBig2, reach_fl_big2, { exNotaBig with valor_restante := 16777216 }, by decide, by decide⟩

end Ledger
